import Mathlib

/-!
# The X11 clipboard owner and requester of `clipboard_linux.c`

A shallow embedding of `src/clipboard_linux.c`.

* Pointers into the global array `incr_states` are array indices; a null pointer is
  `none`. The array together with `incr_count` is a list (the array is reallocated to
  exactly `incr_count` entries after every change), so `incr_count` is its length.
* `size_t` and `unsigned long` are 64 bits wide: arithmetic on them is taken modulo `2 ^ 64`.
* The data of a property is a list of items where the program passes it to
  `XChangeProperty` (`PropWrite`), and the buffer of bytes behind `unsigned char *data` where
  the program gets it from `XGetWindowProperty` (`GetPropResult`): one byte per item for
  format 8, two for format 16, and the eight of a `long` for format 32.
* The calls into libX11 and to `syncStatus` are recorded, in order, as a list of `Call`s.
  What libX11 returns is supplied by the environment: `XEnv` for the set-up calls, the
  integer `R` for `XChangeProperty`, a `GetPropResult` for `XGetWindowProperty`, and the
  list of events for `XNextEvent`.  A loop that waits for an event when the list is
  exhausted is blocked: it has not returned (`ret = none`, or the result is `none`).
-/

namespace Clipboard

/-! ## Constants -/

abbrev Atom := Nat
abbrev Window := Nat
/-- A `Display*`; `0` is `NULL`. -/
abbrev Display := Nat

/-- The macro `INCR_CHUNK_SIZE`, `(64 * 1024)`. -/
def INCR_CHUNK_SIZE : Nat := 64 * 1024
/-- The macro `INCR_THRESHOLD`, `(256 * 1024)`. -/
def INCR_THRESHOLD : Nat := 256 * 1024

/-- Modulus of `size_t` and `unsigned long` arithmetic. -/
def WORD : Nat := 2 ^ 64

/-- The constant `None` of X.h. -/
def None : Nat := 0
/-- The constant `AnyPropertyType` of X.h. -/
def AnyPropertyType : Atom := 0
/-- The predefined atom `XA_ATOM` of Xatom.h. -/
def XA_ATOM : Atom := 4
/-- The constant `Success` of X.h. -/
def Success : Int := 0
/-- The constant `PropertyNewValue` of X.h. -/
def PropertyNewValue : Int := 0
/-- The constant `PropertyDelete` of X.h. -/
def PropertyDelete : Int := 1
/-- The constant `PropertyChangeMask` of X.h. -/
def PropertyChangeMask : Nat := 2 ^ 22
/-- The constant `PropModeReplace` of X.h. -/
def PropModeReplace : Nat := 0
/-- The constant `CurrentTime` of X.h. -/
def CurrentTime : Nat := 0
/-- The event type code `SelectionNotify` of X.h. -/
def SelectionNotify : Nat := 31

/-! ## Events and calls -/

/-- The fields of `XSelectionRequestEvent` the program reads. -/
structure XSelectionRequestEvent where
  display : Display
  owner : Window
  requestor : Window
  selection : Atom
  target : Atom
  property : Atom
  time : Nat
deriving DecidableEq, Repr

/-- The fields of `XSelectionEvent` the program reads or writes. -/
structure XSelectionEvent where
  type : Nat
  display : Display
  requestor : Window
  selection : Atom
  target : Atom
  property : Atom
  time : Nat
deriving DecidableEq, Repr

/-- An `XEvent`, by `event.type`. -/
inductive XEvent where
  | SelectionClear
  | PropertyNotify (window : Window) (atom : Atom) (state : Int)
  | SelectionNotify (xselection : XSelectionEvent)
  | SelectionRequest (xselectionrequest : XSelectionRequestEvent)
  | Other (type : Nat)
deriving DecidableEq, Repr

/-- The arguments of one `XChangeProperty` call. `data` holds the `nelements` items the
call reads from its data pointer (bytes for format 8, longs for format 32). -/
structure PropWrite where
  display : Display
  w : Window
  property : Atom
  type : Atom
  format : Nat
  mode : Nat
  data : List Nat
  nelements : Nat
deriving DecidableEq, Repr

/-- One call that leaves the program: into libX11, or to `syncStatus`. -/
inductive Call where
  | XOpenDisplay
  | XCloseDisplay (d : Display)
  | XDefaultRootWindow (d : Display)
  | XCreateSimpleWindow (d : Display) (parent : Window)
  | XSelectInput (d : Display) (w : Window) (mask : Nat)
  | XInternAtom (d : Display) (name : String) (only_if_exists : Bool)
  | XSetSelectionOwner (d : Display) (sel : Atom) (w : Window) (time : Nat)
  | XGetSelectionOwner (d : Display) (sel : Atom)
  | XNextEvent (d : Display)
  | XChangeProperty (p : PropWrite)
  | XSendEvent (d : Display) (w : Window) (ev : XSelectionEvent)
  | XGetWindowProperty (d : Display) (w : Window) (property : Atom) (delete : Bool)
      (req_type : Atom)
  | XFree
  | XDeleteProperty (d : Display) (w : Window) (property : Atom)
  | XConvertSelection (d : Display) (sel target prop : Atom) (w : Window) (time : Nat)
  | syncStatus (handle : Nat) (status : Int)
deriving DecidableEq, Repr

/-! ## The registry of incremental transfers -/

/-- The struct `incr_state_t`. -/
structure incr_state_t where
  data : List Nat
  total_size : Nat
  offset : Nat
  display : Display
  requestor : Window
  property : Atom
  target : Atom
deriving DecidableEq, Repr

/-- The globals `incr_states` and `incr_count`: the array, of length `incr_count`. -/
abbrev Registry := List incr_state_t

/-- The global `incr_count`. -/
def incr_count (reg : Registry) : Int := reg.length

/-- The function `find_incr_state`: the index of the first entry with the given requestor and
property, `none` for `NULL`. -/
def find_incr_state : Registry → Window → Atom → Option Nat
  | [], _, _ => none
  | s :: rest, requestor, property =>
    if s.requestor = requestor ∧ s.property = property then some 0
    else (find_incr_state rest requestor property).map (· + 1)

/-- The function `add_incr_state`: appends an entry that holds a copy of the first `size`
bytes of `data`. -/
def add_incr_state (reg : Registry) (display : Display) (requestor : Window)
    (property target : Atom) (data : List Nat) (size : Nat) : Registry :=
  reg ++ [{ display := display, requestor := requestor, property := property,
            target := target, data := data.take size, total_size := size, offset := 0 }]

/-- The function `remove_incr_state`: overwrites the entry with the last one unless it is the last,
then shortens the array by one. -/
def remove_incr_state (state : Option Nat) (reg : Registry) : Registry :=
  match state with
  | none => reg
  | some index =>
    let moved :=
      if (index : Int) < incr_count reg - 1 then
        match reg[reg.length - 1]? with
        | some last => reg.set index last
        | none => reg
      else reg
    moved.take (reg.length - 1)

/-- The local `chunk_size` of `send_incr_chunk`, with the chunk size `chunk`
(`INCR_CHUNK_SIZE` in the source):
`remaining = total_size - offset; chunk_size = remaining > chunk ? chunk : remaining`. -/
def chunk_size (chunk : Nat) (s : incr_state_t) : Nat :=
  let remaining := (s.total_size + WORD - s.offset) % WORD
  if remaining > chunk then chunk else remaining

/-- The function `send_incr_chunk` with the chunk size `chunk` (`INCR_CHUNK_SIZE` in the
source): the property write it makes and the registry afterwards. The `int nelements`
passed is `chunk_size`, at most `chunk`, which is 65536 in the source: the conversion from
`size_t` is exact. A `state` that is not an entry of the array is not a pointer the
program ever passes; nothing happens then. -/
def send_incr_chunk (chunk : Nat) (state : Nat) (reg : Registry) : List Call × Registry :=
  match reg[state]? with
  | none => ([], reg)
  | some s =>
    if chunk_size chunk s > 0 then
      ([Call.XChangeProperty
          { display := s.display, w := s.requestor, property := s.property,
            type := s.target, format := 8, mode := PropModeReplace,
            data := (s.data.drop s.offset).take (chunk_size chunk s),
            nelements := chunk_size chunk s }],
       reg.set state { s with offset := (s.offset + chunk_size chunk s) % WORD })
    else
      ([Call.XChangeProperty
          { display := s.display, w := s.requestor, property := s.property,
            type := s.target, format := 8, mode := PropModeReplace,
            data := [], nelements := 0 }],
       remove_incr_state (some state) reg)

/-! ## The owner: `clipboard_write` -/

/-- The locals of `clipboard_write` that its event loop reads. -/
structure Owner where
  d : Display
  w : Window
  sel : Atom
  atomString : Atom
  atomImage : Atom
  targetsAtom : Atom
  incrAtom : Atom
  target : Atom
  buf : List Nat
  n : Nat
  handle : Nat
deriving DecidableEq, Repr

/-- What handling one event did: the registry afterwards, the calls made, and the value
`clipboard_write` returned if it returned. -/
structure StepResult where
  reg : Registry
  calls : List Call
  ret : Option Int
deriving DecidableEq, Repr

/-- The loop `while (incr_count > 0) remove_incr_state(&incr_states[0]);`. -/
def selection_clear_loop (reg : Registry) : Registry :=
  if 0 < reg.length then selection_clear_loop (remove_incr_state (some 0) reg) else reg
termination_by reg.length
decreasing_by
  simp only [remove_incr_state, incr_count]
  split <;> [split; skip] <;> simp only [List.length_take, List.length_set] <;> omega

/-- The test `(R & 2) == 0` for an `int R`. -/
def bit2_clear (R : Int) : Bool := !(R.testBit 1)

/-- The `case SelectionRequest:` of the event loop. `R` is what `XChangeProperty` returns
when this request makes the call. The whole payload is written only when `n` is at most
`INCR_THRESHOLD`, so the conversion of `n` to the `int nelements` is exact. -/
def selection_request (o : Owner) (reg : Registry) (xsr : XSelectionRequestEvent) (R : Int) :
    StepResult :=
  if xsr.selection ≠ o.sel then { reg := reg, calls := [], ret := none }
  else
    let ev : XSelectionEvent :=
      { type := SelectionNotify, display := xsr.display, requestor := xsr.requestor,
        selection := xsr.selection, time := xsr.time, target := xsr.target,
        property := xsr.property }
    if (ev.target = o.atomString ∨ ev.target = o.atomImage) ∧ ev.target = o.target then
      if o.n > INCR_THRESHOLD then
        { reg := add_incr_state reg ev.display ev.requestor ev.property ev.target o.buf o.n,
          calls :=
            [Call.XChangeProperty
               { display := ev.display, w := ev.requestor, property := ev.property,
                 type := o.incrAtom, format := 32, mode := PropModeReplace,
                 data := [o.n], nelements := 1 },
             Call.XSelectInput ev.display ev.requestor PropertyChangeMask] ++
            (if bit2_clear R then [Call.XSendEvent o.d ev.requestor ev] else []),
          ret := none }
      else
        { reg := reg,
          calls :=
            [Call.XChangeProperty
               { display := ev.display, w := ev.requestor, property := ev.property,
                 type := ev.target, format := 8, mode := PropModeReplace,
                 data := o.buf.take o.n, nelements := o.n }] ++
            (if bit2_clear R then [Call.XSendEvent o.d ev.requestor ev] else []),
          ret := none }
    else if ev.target = o.targetsAtom then
      { reg := reg,
        calls :=
          [Call.XChangeProperty
             { display := ev.display, w := ev.requestor, property := ev.property,
               type := XA_ATOM, format := 32, mode := PropModeReplace,
               data := [o.atomString, o.atomImage], nelements := 2 }] ++
          (if bit2_clear R then [Call.XSendEvent o.d ev.requestor ev] else []),
        ret := none }
    else
      { reg := reg,
        calls :=
          if bit2_clear 0 then [Call.XSendEvent o.d ev.requestor { ev with property := None }]
          else [],
        ret := none }

/-- The `switch (event.type)` of the event loop of `clipboard_write`, with the chunk size
`chunk` (`INCR_CHUNK_SIZE` in the source). -/
def owner_event (chunk : Nat) (o : Owner) (reg : Registry) (event : XEvent) (R : Int) :
    StepResult :=
  match event with
  | XEvent.SelectionClear =>
    { reg := selection_clear_loop reg, calls := [Call.XCloseDisplay o.d], ret := some 0 }
  | XEvent.PropertyNotify window atom state =>
    if state = PropertyDelete then
      match find_incr_state reg window atom with
      | some st =>
        let r := send_incr_chunk chunk st reg
        { reg := r.2, calls := r.1, ret := none }
      | none => { reg := reg, calls := [], ret := none }
    else { reg := reg, calls := [], ret := none }
  | XEvent.SelectionNotify _ => { reg := reg, calls := [], ret := none }
  | XEvent.SelectionRequest xsr => selection_request o reg xsr R
  | XEvent.Other _ => { reg := reg, calls := [], ret := none }

/-- The `for (;;)` of `clipboard_write` run on the events that `XNextEvent` delivers, each
with the value `XChangeProperty` returns while it is handled. `notified` is the local of
that name. When the events run out the loop is waiting in `XNextEvent`: `ret = none`. -/
def owner_loop (chunk : Nat) (o : Owner) :
    Int → Registry → List (XEvent × Int) → StepResult
  | notified, reg, [] =>
    { reg := reg,
      calls := (if notified = 0 then [Call.syncStatus o.handle 1] else []) ++
        [Call.XNextEvent o.d],
      ret := none }
  | notified, reg, (event, R) :: rest =>
    let pre := (if notified = 0 then [Call.syncStatus o.handle 1] else []) ++
      [Call.XNextEvent o.d]
    let s := owner_event chunk o reg event R
    match s.ret with
    | some r => { reg := s.reg, calls := pre ++ s.calls, ret := some r }
    | none =>
      let t := owner_loop chunk o 1 s.reg rest
      { reg := t.reg, calls := pre ++ s.calls ++ t.calls, ret := t.ret }

/-- What the environment answers to the set-up calls of one run. -/
structure XEnv where
  /-- whether the global `libX11` is already set -/
  libX11 : Bool
  /-- whether `dlopen("libX11.so", RTLD_LAZY)` succeeds -/
  dlopen : Bool
  /-- what the `i`-th call of `XOpenDisplay` returns (`0` is `NULL`) -/
  XOpenDisplay : Nat → Display
  XDefaultRootWindow : Display → Window
  XCreateSimpleWindow : Display → Window → Window
  XInternAtom : String → Bool → Atom
  XGetSelectionOwner : Atom → Window

/-- The function `initX11`: nonzero iff the library is, or gets, loaded. -/
def initX11 (env : XEnv) : Bool :=
  if env.libX11 then true else if !env.dlopen then false else true

/-- The loop `for (int i = 0; i < 42; i++)` around `XOpenDisplay`, from attempt `i` with
`k` iterations left: the final `d` and the calls made. -/
def open_display (env : XEnv) : Nat → Nat → Display × List Call
  | 0, _ => (0, [])
  | k + 1, i =>
    let d := env.XOpenDisplay i
    if d = 0 then
      let r := open_display env k (i + 1)
      (r.1, Call.XOpenDisplay :: r.2)
    else (d, [Call.XOpenDisplay])

/-- The calls of `clipboard_write` on the display `d` from `XCreateSimpleWindow` to the
interning of the caller's type. -/
def write_setup (env : XEnv) (typ : String) (d : Display) : List Call :=
  [Call.XDefaultRootWindow d, Call.XCreateSimpleWindow d (env.XDefaultRootWindow d),
   Call.XSelectInput d (env.XCreateSimpleWindow d (env.XDefaultRootWindow d))
     PropertyChangeMask,
   Call.XInternAtom d "CLIPBOARD" false, Call.XInternAtom d "UTF8_STRING" false,
   Call.XInternAtom d "image/png" false, Call.XInternAtom d "TARGETS" false,
   Call.XInternAtom d "INCR" false, Call.XInternAtom d typ true]

/-- The calls of `clipboard_read` on the display `d` from `XCreateSimpleWindow` to the
interning of the caller's type. -/
def read_setup (env : XEnv) (typ : String) (d : Display) : List Call :=
  [Call.XDefaultRootWindow d, Call.XCreateSimpleWindow d (env.XDefaultRootWindow d),
   Call.XInternAtom d "CLIPBOARD" false, Call.XInternAtom d "GOLANG_DESIGN_DATA" false,
   Call.XInternAtom d typ true]

/-- The locals of `clipboard_write` when it enters its event loop on the display `d` with
the window `w`: the atoms as interned, the payload and its length `n`. -/
def owner_locals (env : XEnv) (typ : String) (buf : List Nat) (handle : Nat) (d : Display)
    (w : Window) : Owner :=
  { d := d, w := w, sel := env.XInternAtom "CLIPBOARD" false,
    atomString := env.XInternAtom "UTF8_STRING" false,
    atomImage := env.XInternAtom "image/png" false,
    targetsAtom := env.XInternAtom "TARGETS" false,
    incrAtom := env.XInternAtom "INCR" false,
    target := env.XInternAtom typ true,
    buf := buf, n := buf.length, handle := handle }

/-- The function `clipboard_write(typ, buf, n, handle)` with `n` the length of `buf`,
started with the global registry `reg`, on the events `XNextEvent` delivers, each with the
value `XChangeProperty` returns while it is handled. -/
def clipboard_write (chunk : Nat) (env : XEnv) (reg : Registry) (typ : String)
    (buf : List Nat) (handle : Nat) (events : List (XEvent × Int)) : StepResult :=
  if !initX11 env then { reg := reg, calls := [], ret := some (-1) }
  else
    let opened := open_display env 42 0
    let d := opened.1
    if d = 0 then
      { reg := reg, calls := opened.2 ++ [Call.syncStatus handle (-1)], ret := some (-1) }
    else
      let root := env.XDefaultRootWindow d
      let w := env.XCreateSimpleWindow d root
      let sel := env.XInternAtom "CLIPBOARD" false
      let target := env.XInternAtom typ true
      let setup := opened.2 ++ write_setup env typ d
      if target = None then
        { reg := reg, calls := setup ++ [Call.XCloseDisplay d, Call.syncStatus handle (-2)],
          ret := some (-2) }
      else
        let claim := setup ++
          [Call.XSetSelectionOwner d sel w CurrentTime, Call.XGetSelectionOwner d sel]
        if env.XGetSelectionOwner sel ≠ w then
          { reg := reg, calls := claim ++ [Call.XCloseDisplay d, Call.syncStatus handle (-3)],
            ret := some (-3) }
        else
          let t := owner_loop chunk (owner_locals env typ buf handle d w) 0 reg events
          { reg := t.reg, calls := claim ++ t.calls, ret := t.ret }

/-! ## The requester: `read_data` and `clipboard_read` -/

/-- What one `XGetWindowProperty` call returns: its return value and its out-parameters
`actual`, `format`, `size` (the number of items), `n` (the bytes left) and `data`: the
buffer behind the `unsigned char *data`, byte by byte, without the zero byte that Xlib
puts after the items. -/
structure GetPropResult where
  ret : Int
  actual : Atom
  format : Int
  size : Nat
  n : Nat
  data : List Nat
deriving DecidableEq, Repr

/-- What the INCR loop of `read_data` leaves: `incr_buf` (`none` for `NULL`),
`total_size`, and the calls made. -/
structure IncrResult where
  incr_buf : Option (List Nat)
  total_size : Nat
  calls : List Call
deriving DecidableEq, Repr

/-- What a read returns: the return value (an `unsigned long`), the caller's `*buf` when
the call set it, and the calls made. -/
structure ReadResult where
  ret : Nat
  buf : Option (List Nat)
  calls : List Call
deriving DecidableEq, Repr

/-- The test `event.type != PropertyNotify || event.xproperty.window != window ||
event.xproperty.atom != prop || event.xproperty.state != PropertyNewValue` of the INCR
loop of `read_data`. -/
def incr_skip (window : Window) (prop : Atom) : XEvent → Bool
  | XEvent.PropertyNotify w a st =>
    decide (w ≠ window ∨ a ≠ prop ∨ st ≠ PropertyNewValue)
  | _ => true

/-- The `for (;;)` of the INCR branch of `read_data`, on the events `XNextEvent` delivers,
each with what `XGetWindowProperty` returns if it is called for that event. The
`memcpy(incr_buf + total_size, data, size)` appends the first `size` bytes of the buffer,
whatever the format. `none` when the events run out before the loop breaks. -/
def incr_loop (display : Display) (window : Window) (prop target : Atom) :
    List (XEvent × GetPropResult) → Option (List Nat) → Nat → Option IncrResult
  | [], _, _ => none
  | (event, g) :: rest, incr_buf, total_size =>
    if incr_skip window prop event then
      (incr_loop display window prop target rest incr_buf total_size).map
        fun r => { r with calls := Call.XNextEvent display :: r.calls }
    else if g.ret ≠ Success then
      some { incr_buf := incr_buf, total_size := total_size,
             calls := [Call.XNextEvent display,
                       Call.XGetWindowProperty display window prop true target] }
    else if g.size = 0 then
      some { incr_buf := incr_buf, total_size := total_size,
             calls := [Call.XNextEvent display,
                       Call.XGetWindowProperty display window prop true target,
                       Call.XFree] }
    else
      (incr_loop display window prop target rest
          (some (incr_buf.getD [] ++ g.data.take g.size)) ((total_size + g.size) % WORD)).map
        fun r => { r with calls :=
          [Call.XNextEvent display,
           Call.XGetWindowProperty display window prop true target,
           Call.XFree] ++ r.calls }

/-- The function `read_data(display, window, sev, sel, prop, target, buf)`: `buf` tells whether the
pointer `buf` is non-null, `first` is what the first `XGetWindowProperty` returns, `events`
feed the INCR loop. The `memcpy(*buf, data, size*sizeof(char))` hands over the first `size`
bytes of the buffer, whatever the format. `none` when the INCR loop is left waiting. -/
def read_data (env : XEnv) (display : Display) (window : Window) (sev : XSelectionEvent)
    (sel prop target : Atom) (buf : Bool) (first : GetPropResult)
    (events : List (XEvent × GetPropResult)) : Option ReadResult :=
  if !initX11 env then some { ret := WORD - 1, buf := none, calls := [] }
  else if sev.property = None ∨ sev.selection ≠ sel ∨ sev.property ≠ prop then
    some { ret := 0, buf := none, calls := [] }
  else
    let get := Call.XGetWindowProperty sev.display sev.requestor sev.property false
      AnyPropertyType
    if first.ret ≠ Success then some { ret := 0, buf := none, calls := [get] }
    else
      let incrAtom := env.XInternAtom "INCR" false
      let del := Call.XDeleteProperty sev.display sev.requestor sev.property
      if first.actual = incrAtom then
        (incr_loop display window prop target events none 0).map fun r =>
          { ret := r.total_size,
            buf := if buf ∧ r.incr_buf ≠ none then r.incr_buf else none,
            calls := [get, Call.XInternAtom display "INCR" false, Call.XFree, del,
                      Call.XSelectInput display window PropertyChangeMask] ++ r.calls }
      else if first.actual = target ∧ buf then
        some { ret := (first.size * 1) % WORD, buf := some (first.data.take (first.size * 1)),
               calls := [get, Call.XInternAtom display "INCR" false, Call.XFree, del] }
      else
        some { ret := 0, buf := none,
               calls := [get, Call.XInternAtom display "INCR" false, Call.XFree, del] }

/-- The loop of `clipboard_read` that waits for the first `SelectionNotify`: the event,
what is attached to it, the events after it, and the number of events awaited. `none`
when no such event arrives. -/
def await_notify :
    List (XEvent × GetPropResult) →
      Option (XSelectionEvent × GetPropResult × List (XEvent × GetPropResult) × Nat)
  | [] => none
  | (XEvent.SelectionNotify sev, g) :: rest => some (sev, g, rest, 1)
  | _ :: rest => (await_notify rest).map fun r => (r.1, r.2.1, r.2.2.1, r.2.2.2 + 1)

/-- The part of `clipboard_read` after `XConvertSelection`: the loop that waits for the
first `SelectionNotify`, then `read_data` on it. `none` when left waiting for an event. -/
def read_reply (env : XEnv) (d : Display) (w : Window) (sel prop target : Atom) (buf : Bool)
    (events : List (XEvent × GetPropResult)) : Option ReadResult :=
  match await_notify events with
  | none => none
  | some (sev, first, rest, k) =>
    (read_data env d w sev sel prop target buf first rest).map fun r =>
      { ret := r.ret, buf := r.buf,
        calls := List.replicate k (Call.XNextEvent d) ++ r.calls }

/-- The function `clipboard_read(typ, buf)`: `buf` tells whether the pointer is non-null. The events
are those `XNextEvent` delivers, each with what `XGetWindowProperty` returns when it is
called for that event. `none` when the call is left waiting for an event. -/
def clipboard_read (env : XEnv) (typ : String) (buf : Bool)
    (events : List (XEvent × GetPropResult)) : Option ReadResult :=
  if !initX11 env then some { ret := WORD - 1, buf := none, calls := [] }
  else
    let opened := open_display env 42 0
    let d := opened.1
    if d = 0 then some { ret := WORD - 1, buf := none, calls := opened.2 }
    else
      let root := env.XDefaultRootWindow d
      let w := env.XCreateSimpleWindow d root
      let sel := env.XInternAtom "CLIPBOARD" false
      let prop := env.XInternAtom "GOLANG_DESIGN_DATA" false
      let target := env.XInternAtom typ true
      let setup := opened.2 ++ read_setup env typ d
      if target = None then
        some { ret := WORD - 2, buf := none, calls := setup ++ [Call.XCloseDisplay d] }
      else
        (read_reply { env with libX11 := true } d w sel prop target buf events).map fun r =>
          { ret := r.ret, buf := r.buf,
            calls := setup ++ [Call.XConvertSelection d sel target prop w CurrentTime] ++
              r.calls ++ [Call.XCloseDisplay d] }

/-! ## The X server between owner and requester -/

/-- The bytes one item of a property takes in the buffer `XGetWindowProperty` returns, on
a little-endian machine with 64-bit `long`: a `char` for format 8, a `short` for format 16,
and for format 32 a `long` that holds the 32 bits the server keeps, sign-extended. -/
def item_bytes (format : Nat) (x : Nat) : List Nat :=
  if format = 8 then [x]
  else if format = 16 then [x % 256, x / 256 % 256]
  else if format = 32 then
    (List.range 8).map fun i =>
      (if x % 2 ^ 32 < 2 ^ 31 then x % 2 ^ 32 else x % 2 ^ 32 + (2 ^ 64 - 2 ^ 32)) / 256 ^ i % 256
  else []

/-- The buffer `XGetWindowProperty` returns for the items of a property: the bytes
themselves for format 8, else the bytes of one item after the other. -/
def property_bytes (format : Nat) (items : List Nat) : List Nat :=
  if format = 8 then items else (items.map (item_bytes format)).flatten

/-- What `XGetWindowProperty` with offset 0 and unbounded length returns for a property
that was last written by the `XChangeProperty` call `p`, when asked for `req_type`: the
items when the type is the one asked for (or any type is), else no items. -/
def get_property (req_type : Atom) (p : PropWrite) : GetPropResult :=
  if req_type = AnyPropertyType ∨ req_type = p.type then
    { ret := Success, actual := p.type, format := p.format, size := p.nelements, n := 0,
      data := property_bytes p.format p.data }
  else
    { ret := Success, actual := p.type, format := p.format, size := 0,
      n := p.nelements * (p.format / 8), data := [] }

/-- The events the property writes among `calls` raise at the requestor, in order: one
`PropertyNotify` with state `PropertyNewValue` per `XChangeProperty`, each with what the
requestor's `XGetWindowProperty` for `req_type` then returns. -/
def chunk_events (req_type : Atom) : List Call → List (XEvent × GetPropResult)
  | [] => []
  | Call.XChangeProperty p :: rest =>
    (XEvent.PropertyNotify p.w p.property PropertyNewValue, get_property req_type p) ::
      chunk_events req_type rest
  | _ :: rest => chunk_events req_type rest

/-- The request the X server delivers to the owner of the selection, on the owner's
display `od` and window `ow`, for the requester's call
`XConvertSelection(d, sel, target, prop, w, CurrentTime)`. -/
def convert_request (od : Display) (ow : Window) (sel target prop : Atom) (w : Window) :
    XSelectionRequestEvent :=
  { display := od, owner := ow, requestor := w, selection := sel, target := target,
    property := prop, time := CurrentTime }

/-- The last `XChangeProperty` among `calls` on the property `prop` of the window `w`. -/
def last_write (calls : List Call) (w : Window) (prop : Atom) : Option PropWrite :=
  calls.foldl
    (fun acc c =>
      match c with
      | Call.XChangeProperty p => if p.w = w ∧ p.property = prop then some p else acc
      | _ => acc)
    none

/-- What `XGetWindowProperty` returns for the property `prop` of `w` after `calls`: that
of its last write, or, for a property never written, type `None` and no items. -/
def read_property (calls : List Call) (w : Window) (prop req_type : Atom) : GetPropResult :=
  match last_write calls w prop with
  | some p => get_property req_type p
  | none => { ret := Success, actual := None, format := 0, size := 0, n := 0, data := [] }

/-- The events the window `w` receives on its display `d` from `calls`: those sent to it
with `XSendEvent` (Xlib sets the `display` field of a delivered event to the receiving
connection), each with what the first `XGetWindowProperty` of `read_data` returns for it. -/
def reply_events (calls : List Call) (d : Display) (w : Window) :
    List (XEvent × GetPropResult) :=
  calls.filterMap fun c =>
    match c with
    | Call.XSendEvent _ dest ev =>
      if dest = w then
        some (XEvent.SelectionNotify { ev with display := d },
          read_property calls ev.requestor ev.property AnyPropertyType)
      else none
    | _ => none

/-- The X server gives the atom INCR a value different from those of UTF8_STRING and
image/png, and neither INCR nor TARGETS is the predefined atom ATOM. -/
def atoms_distinct (env : XEnv) : Prop :=
  env.XInternAtom "INCR" false ≠ env.XInternAtom "UTF8_STRING" false ∧
  env.XInternAtom "INCR" false ≠ env.XInternAtom "image/png" false ∧
  env.XInternAtom "INCR" false ≠ XA_ATOM ∧
  env.XInternAtom "TARGETS" false ≠ XA_ATOM

instance (env : XEnv) : Decidable (atoms_distinct env) := by
  unfold atoms_distinct; infer_instance

/-- An X server for the examples: the atoms of the names the program interns, STRING as
the predefined atom 31, and no atom for any other name asked for strictly. -/
def sample_env : XEnv :=
  { libX11 := false, dlopen := true,
    XOpenDisplay := fun i => if i < 2 then 0 else 1,
    XDefaultRootWindow := fun _ => 2,
    XCreateSimpleWindow := fun _ _ => 3,
    XInternAtom := fun name only_if_exists =>
      if name = "CLIPBOARD" then 100
      else if name = "UTF8_STRING" then 101
      else if name = "image/png" then 102
      else if name = "TARGETS" then 103
      else if name = "INCR" then 104
      else if name = "GOLANG_DESIGN_DATA" then 105
      else if name = "STRING" then 31
      else if only_if_exists then 0 else 200,
    XGetSelectionOwner := fun _ => 3 }

/-! ## Predicates used by the statements -/

/-- The invariant `offset ≤ total_size` of every entry of the registry. -/
def offset_inv (reg : Registry) : Prop := ∀ s ∈ reg, s.offset ≤ s.total_size

/-- The key of a transfer state: its requestor window and property. -/
def key (s : incr_state_t) : Window × Atom := (s.requestor, s.property)

/-- No two entries of the registry have the same (requestor, property). -/
def keys_unique (reg : Registry) : Prop := (reg.map key).Nodup

instance (reg : Registry) : Decidable (keys_unique reg) := by
  unfold keys_unique; infer_instance

instance (reg : Registry) : Decidable (offset_inv reg) := by
  unfold offset_inv; infer_instance

/-- The transfer state of payload `B` at offset `off`. -/
def transfer (d : Display) (w : Window) (p t : Atom) (B : List Nat) (off : Nat) :
    incr_state_t :=
  { data := B, total_size := B.length, offset := off, display := d, requestor := w,
    property := p, target := t }

/-- The state `find_incr_state` finds for a key, `none` when it finds none. -/
def lookup (reg : Registry) (w : Window) (p : Atom) : Option incr_state_t :=
  (find_incr_state reg w p).bind fun i => reg[i]?

/-- Whether the event loop answers the request by starting an incremental transfer:
the conditions under which `case SelectionRequest:` reaches `add_incr_state`. -/
def starts_incr (o : Owner) (xsr : XSelectionRequestEvent) : Bool :=
  decide (xsr.selection = o.sel ∧
    ((xsr.target = o.atomString ∨ xsr.target = o.atomImage) ∧ xsr.target = o.target) ∧
    o.n > INCR_THRESHOLD)

/-- Along the events the loop handles from the registry `reg` on, every request that
starts an incremental transfer names a (requestor, property) that has no transfer state
in the registry at that moment. -/
def fresh_requests (chunk : Nat) (o : Owner) : Registry → List (XEvent × Int) → Bool
  | _, [] => true
  | reg, (event, R) :: rest =>
    (match event with
     | XEvent.SelectionRequest xsr =>
       !(starts_incr o xsr) || (find_incr_state reg xsr.requestor xsr.property).isNone
     | _ => true) &&
    ((owner_event chunk o reg event R).ret.isSome ||
      fresh_requests chunk o (owner_event chunk o reg event R).reg rest)

/-- An owner of a payload of 262145 zero bytes of type UTF8_STRING (atom 5). -/
def large_owner : Owner :=
  { d := 1, w := 3, sel := 10, atomString := 5, atomImage := 6, targetsAtom := 11,
    incrAtom := 12, target := 5, buf := List.replicate 262145 0, n := 262145, handle := 0 }

/-- The request of window `w` to convert the selection 10 to target 5 on property 9. -/
def request_from (w : Window) : XSelectionRequestEvent :=
  { display := 1, owner := 3, requestor := w, selection := 10, target := 5, property := 9,
    time := 0 }

/-- Window 7 requests once, window 8 twice; window 8 takes its first chunk, window 7 all
its five chunks. -/
def overlapping_requests : List (XEvent × Int) :=
  [(XEvent.SelectionRequest (request_from 7), 1),
   (XEvent.SelectionRequest (request_from 8), 1),
   (XEvent.SelectionRequest (request_from 8), 1),
   (XEvent.PropertyNotify 8 9 PropertyDelete, 0),
   (XEvent.PropertyNotify 7 9 PropertyDelete, 0),
   (XEvent.PropertyNotify 7 9 PropertyDelete, 0),
   (XEvent.PropertyNotify 7 9 PropertyDelete, 0),
   (XEvent.PropertyNotify 7 9 PropertyDelete, 0),
   (XEvent.PropertyNotify 7 9 PropertyDelete, 0)]

/-- An `unsigned long` read as a `long`. -/
def as_long (x : Nat) : Int := if x < 2 ^ 63 then x else (x : Int) - 2 ^ 64

/-- Whether the call is `XNextEvent`. -/
def is_next_event : Call → Bool
  | Call.XNextEvent _ => true
  | _ => false

/-- The status codes passed to `syncStatus` among `calls`, in order. -/
def status_calls (calls : List Call) : List Int :=
  calls.filterMap fun c =>
    match c with
    | Call.syncStatus _ status => some status
    | _ => none

/-- Whether an event is awaited among `calls`: the event loop was entered. -/
def awaits_event (calls : List Call) : Bool := calls.any is_next_event

/-- The calls that reach another client or change what other clients see: claiming the
selection, asking for its conversion, sending an event, writing a property. -/
def contacts_peer : Call → Bool
  | Call.XSetSelectionOwner _ _ _ _ => true
  | Call.XConvertSelection _ _ _ _ _ _ => true
  | Call.XSendEvent _ _ _ => true
  | Call.XChangeProperty _ => true
  | _ => false

/-- The arguments of the `XChangeProperty` calls among `calls`, in order. -/
def property_writes (calls : List Call) : List PropWrite :=
  calls.filterMap fun c =>
    match c with
    | Call.XChangeProperty p => some p
    | _ => none

/-- The events sent with `XSendEvent` among `calls`, each with its destination window. -/
def events_sent (calls : List Call) : List (Window × XSelectionEvent) :=
  calls.filterMap fun c =>
    match c with
    | Call.XSendEvent _ w ev => some (w, ev)
    | _ => none

/-- The reply event that mirrors a request: `ev` of `case SelectionRequest:` after its
field assignments. -/
def mirror (xsr : XSelectionRequestEvent) : XSelectionEvent :=
  { type := SelectionNotify, display := xsr.display, requestor := xsr.requestor,
    selection := xsr.selection, target := xsr.target, property := xsr.property,
    time := xsr.time }

/-- The request is declined: its target is neither the caller's type, when that is
UTF8_STRING or image/png, nor TARGETS. -/
def declined (o : Owner) (xsr : XSelectionRequestEvent) : Prop :=
  ¬ ((xsr.target = o.atomString ∨ xsr.target = o.atomImage) ∧ xsr.target = o.target) ∧
    xsr.target ≠ o.targetsAtom

instance (o : Owner) (xsr : XSelectionRequestEvent) : Decidable (declined o xsr) := by
  unfold declined; infer_instance

/-- The entries of the registry with the requestor `w` and the property `p`, in order. -/
def key_states (reg : Registry) (w : Window) (p : Atom) : List incr_state_t :=
  reg.filter fun x => decide (x.requestor = w ∧ x.property = p)

/-- Whether the event leaves the loop running and the key (`w`, `p`) with the states it
has: it is not `SelectionClear`, and not a request that starts an incremental transfer
for that requestor and property. -/
def leaves_key (o : Owner) (w : Window) (p : Atom) : XEvent → Bool
  | XEvent.SelectionClear => false
  | XEvent.SelectionRequest xsr =>
    !(starts_incr o xsr && decide (xsr.requestor = w ∧ xsr.property = p))
  | _ => true

/-- The number of property-delete notifications for the key (`w`, `p`) among the events. -/
def notifications_for (w : Window) (p : Atom) (events : List (XEvent × Int)) : Nat :=
  events.countP fun e => decide (e.1 = XEvent.PropertyNotify w p PropertyDelete)

/-- The events of the example: window 7 takes five chunks, the last of them the rest of
its 262145 bytes, while window 8 takes a chunk, window 6 requests the payload and other
events arrive. -/
def interleaved_events : List (XEvent × Int) :=
  [(XEvent.PropertyNotify 7 9 PropertyDelete, 0),
   (XEvent.PropertyNotify 8 9 PropertyDelete, 0),
   (XEvent.SelectionRequest (request_from 6), 1),
   (XEvent.PropertyNotify 7 9 PropertyDelete, 0),
   (XEvent.PropertyNotify 7 9 PropertyNewValue, 0),
   (XEvent.PropertyNotify 7 9 PropertyDelete, 0),
   (XEvent.PropertyNotify 7 9 PropertyDelete, 0),
   (XEvent.Other 2, 0),
   (XEvent.PropertyNotify 7 9 PropertyDelete, 0)]

/-- Whether the event is a `PropertyNotify` of state `PropertyNewValue` on the window
`window` and the property `prop`. -/
def incr_match (window : Window) (prop : Atom) (event : XEvent) : Bool :=
  decide (event = XEvent.PropertyNotify window prop PropertyNewValue)

/-- What the property reads made for the matching events of a stream return, in order of
arrival. -/
def incr_reads (window : Window) (prop : Atom) (events : List (XEvent × GetPropResult)) :
    List GetPropResult :=
  (events.filter fun e => incr_match window prop e.1).map fun e => e.2

/-- Whether a read ends the transfer: it fails or returns zero items. -/
def read_ends (g : GetPropResult) : Bool := decide (g.ret ≠ Success ∨ g.size = 0)

/-- The reads before the first one that ends the transfer. -/
def incr_chunks (window : Window) (prop : Atom) (events : List (XEvent × GetPropResult)) :
    List GetPropResult :=
  (incr_reads window prop events).takeWhile fun g => !read_ends g

/-- The number of bytes one item takes in the buffer `XGetWindowProperty` returns: a
`char` for format 8, a `short` for format 16, a `long` for format 32. -/
def item_width (format : Int) : Nat :=
  if format = 8 then 1 else if format = 16 then 2 else if format = 32 then 8 else 0

/-- The buffer of the read holds the items the read reports: `size` items of the width of
its format. -/
def whole_items (g : GetPropResult) : Prop := g.data.length = g.size * item_width g.format

instance (g : GetPropResult) : Decidable (whole_items g) := by
  unfold whole_items; infer_instance

/-- The concatenation, in order, of the bytes the reads returned: their chunks. -/
def chunk_bytes (reads : List GetPropResult) : List Nat :=
  (reads.map fun g => g.data).flatten

/-- The concatenation, in order, of the bytes the INCR loop copies from the reads: the
first `size` bytes of each buffer. -/
def copied_bytes (reads : List GetPropResult) : List Nat :=
  (reads.map fun g => g.data.take g.size).flatten

/-! ## Lemmas on the registry -/

theorem remove_incr_state_length (i : Nat) (reg : Registry) :
    (remove_incr_state (some i) reg).length = reg.length - 1 := by
  simp only [remove_incr_state, incr_count]
  split <;> [split; skip] <;> simp only [List.length_take, List.length_set] <;> omega

theorem selection_clear_loop_nil (reg : Registry) : selection_clear_loop reg = [] := by
  generalize hn : reg.length = n
  induction n using Nat.strong_induction_on generalizing reg with
  | _ n ih =>
    rw [selection_clear_loop]
    split
    · rename_i hpos
      exact ih (reg.length - 1) (by omega) _ (remove_incr_state_length 0 reg)
    · exact List.length_eq_zero.mp (by omega)

theorem mem_remove_incr_state (st : Option Nat) (reg : Registry) (s : incr_state_t)
    (h : s ∈ remove_incr_state st reg) : s ∈ reg := by
  cases st with
  | none => exact h
  | some i =>
    simp only [remove_incr_state] at h
    have h1 := List.mem_of_mem_take h
    split at h1
    · split at h1
      · rename_i last hl
        rcases List.mem_or_eq_of_mem_set h1 with h2 | h2
        · exact h2
        · subst h2
          exact List.getElem?_mem hl
      · exact h1
    · exact h1

theorem offset_inv_add (reg : Registry) (h : offset_inv reg) (d : Display) (r : Window)
    (p t : Atom) (data : List Nat) (size : Nat) :
    offset_inv (add_incr_state reg d r p t data size) := by
  intro s hs
  simp only [add_incr_state, List.mem_append, List.mem_singleton] at hs
  rcases hs with hs | hs
  · exact h s hs
  · subst hs; exact Nat.zero_le _

theorem offset_inv_remove (reg : Registry) (h : offset_inv reg) (st : Option Nat) :
    offset_inv (remove_incr_state st reg) :=
  fun s hs => h s (mem_remove_incr_state st reg s hs)

theorem offset_inv_send (reg : Registry) (h : offset_inv reg) (chunk st : Nat) :
    offset_inv (send_incr_chunk chunk st reg).2 := by
  unfold send_incr_chunk
  split
  · exact h
  · rename_i s hs
    have hle := h s (List.getElem?_mem hs)
    have hcs : chunk_size chunk s ≤ s.total_size - s.offset := by
      simp only [chunk_size, WORD]
      split <;> omega
    split
    · intro s' hs'
      rcases List.mem_or_eq_of_mem_set hs' with h2 | h2
      · exact h s' h2
      · subst h2
        simp only [WORD]
        omega
    · exact offset_inv_remove reg h (some st)

theorem offset_inv_event (reg : Registry) (h : offset_inv reg) (chunk : Nat) (o : Owner)
    (event : XEvent) (R : Int) : offset_inv (owner_event chunk o reg event R).reg := by
  cases event with
  | SelectionClear =>
    simp only [owner_event, selection_clear_loop_nil]
    intro s hs; cases hs
  | PropertyNotify window atom state =>
    simp only [owner_event]
    split
    · split
      · exact offset_inv_send reg h _ _
      · exact h
    · exact h
  | SelectionNotify sev => exact h
  | SelectionRequest xsr =>
    simp only [owner_event, selection_request]
    split
    · exact h
    · split
      · split
        · exact offset_inv_add reg h _ _ _ _ _ _
        · exact h
      · split <;> exact h
  | Other t => exact h

theorem offset_inv_loop (chunk : Nat) (o : Owner) (events : List (XEvent × Int)) :
    ∀ (notified : Int) (reg : Registry), offset_inv reg →
      offset_inv (owner_loop chunk o notified reg events).reg := by
  induction events with
  | nil => intro notified reg h; exact h
  | cons e rest ih =>
    intro notified reg h
    obtain ⟨event, R⟩ := e
    have hs := offset_inv_event reg h chunk o event R
    simp only [owner_loop]
    split
    · exact hs
    · exact ih 1 _ hs

/-! ## Lemmas on lookup -/

theorem find_incr_state_none_iff (reg : Registry) (w : Window) (p : Atom) :
    find_incr_state reg w p = none ↔ ∀ s ∈ reg, ¬(s.requestor = w ∧ s.property = p) := by
  induction reg with
  | nil => simp [find_incr_state]
  | cons a rest ih =>
    simp only [find_incr_state, List.mem_cons, forall_eq_or_imp]
    split
    · rename_i h; simp [h]
    · rename_i h
      simp only [Option.map_eq_none', ih, h, not_false_eq_true, true_and]

theorem find_incr_state_append_fresh (reg : Registry) (s : incr_state_t) (w : Window)
    (p : Atom) (h : find_incr_state reg w p = none) (hw : s.requestor = w)
    (hp : s.property = p) : find_incr_state (reg ++ [s]) w p = some reg.length := by
  induction reg with
  | nil => simp [find_incr_state, hw, hp]
  | cons a rest ih =>
    simp only [find_incr_state] at h
    split at h
    · cases h
    · rename_i hne
      simp only [Option.map_eq_none'] at h
      simp [find_incr_state, hne, ih h]

theorem chunk_events_append (t : Atom) (xs ys : List Call) :
    chunk_events t (xs ++ ys) = chunk_events t xs ++ chunk_events t ys := by
  induction xs with
  | nil => rfl
  | cons c rest ih => cases c <;> simp [chunk_events, ih]

theorem owner_loop_cons_none (chunk : Nat) (o : Owner) (notified : Int) (reg : Registry)
    (event : XEvent) (R : Int) (rest : List (XEvent × Int))
    (h : (owner_event chunk o reg event R).ret = none) :
    owner_loop chunk o notified reg ((event, R) :: rest) =
      { reg := (owner_loop chunk o 1 (owner_event chunk o reg event R).reg rest).reg,
        calls := (if notified = 0 then [Call.syncStatus o.handle 1] else []) ++
          [Call.XNextEvent o.d] ++ (owner_event chunk o reg event R).calls ++
          (owner_loop chunk o 1 (owner_event chunk o reg event R).reg rest).calls,
        ret := (owner_loop chunk o 1 (owner_event chunk o reg event R).reg rest).ret } := by
  simp only [owner_loop, h]

/-- Property-delete notifications for a key without a state make no call but
`XNextEvent`. -/
theorem owner_loop_deletes_no_state (chunk : Nat) (o : Owner) (reg : Registry) (w : Window)
    (p : Atom) (h : find_incr_state reg w p = none) (t : Atom) (Rs : List Int) :
    (owner_loop chunk o 1 reg
        (Rs.map fun R => (XEvent.PropertyNotify w p PropertyDelete, R))).reg = reg ∧
    (owner_loop chunk o 1 reg
        (Rs.map fun R => (XEvent.PropertyNotify w p PropertyDelete, R))).ret = none ∧
    chunk_events t (owner_loop chunk o 1 reg
        (Rs.map fun R => (XEvent.PropertyNotify w p PropertyDelete, R))).calls = [] := by
  induction Rs with
  | nil => simp [owner_loop, chunk_events]
  | cons R Rs ih =>
    have hev : owner_event chunk o reg (XEvent.PropertyNotify w p PropertyDelete) R =
        { reg := reg, calls := [], ret := none } := by
      simp [owner_event, h]
    rw [List.map_cons, owner_loop_cons_none _ _ _ _ _ _ _ (by rw [hev])]
    simp only [hev]
    refine ⟨ih.1, ih.2.1, ?_⟩
    simp [chunk_events_append, chunk_events, ih.2.2]

theorem chunk_size_transfer (chunk : Nat) (d : Display) (w : Window) (p t : Atom)
    (B : List Nat) (off : Nat) (hB : B.length < WORD) (hoff : off ≤ B.length) :
    chunk_size chunk (transfer d w p t B off) = min chunk (B.length - off) := by
  simp only [chunk_size, transfer, WORD] at hB ⊢
  split <;> omega

/-- One property-delete notification for the last entry of the registry. -/
theorem owner_event_delete_last (chunk : Nat) (o : Owner) (reg : Registry) (d : Display)
    (w : Window) (p t : Atom) (B : List Nat) (off : Nat) (R : Int)
    (hB : B.length < WORD) (hoff : off ≤ B.length)
    (hfresh : find_incr_state reg w p = none) :
    owner_event chunk o (reg ++ [transfer d w p t B off])
        (XEvent.PropertyNotify w p PropertyDelete) R =
      if 0 < min chunk (B.length - off) then
        { reg := reg ++ [transfer d w p t B (off + min chunk (B.length - off))],
          calls := [Call.XChangeProperty
            { display := d, w := w, property := p, type := t, format := 8,
              mode := PropModeReplace,
              data := (B.drop off).take (min chunk (B.length - off)),
              nelements := min chunk (B.length - off) }],
          ret := none }
      else
        { reg := reg,
          calls := [Call.XChangeProperty
            { display := d, w := w, property := p, type := t, format := 8,
              mode := PropModeReplace, data := [], nelements := 0 }],
          ret := none } := by
  have hfind := find_incr_state_append_fresh reg (transfer d w p t B off) w p hfresh rfl rfl
  have hcs := chunk_size_transfer chunk d w p t B off hB hoff
  have hget : (reg ++ [transfer d w p t B off])[reg.length]? =
      some (transfer d w p t B off) := by simp
  simp only [owner_event, hfind, send_incr_chunk, hget, hcs, if_true]
  split
  · have hmod : (off + min chunk (B.length - off)) % WORD = off + min chunk (B.length - off) := by
      apply Nat.mod_eq_of_lt
      simp only [WORD] at hB ⊢
      omega
    simp [transfer, hmod]
  · simp [remove_incr_state, incr_count, transfer]

/-- The INCR loop reading a property written in format 8 with at least one item of the
type it asks for: the items are appended and the loop goes on. -/
theorem incr_loop_chunk (display : Display) (w : Window) (p t : Atom) (pw : PropWrite)
    (hw : pw.w = w) (hp : pw.property = p) (ht : pw.type = t) (hf : pw.format = 8)
    (hn : 0 < pw.nelements)
    (rest : List (XEvent × GetPropResult)) (acc : Option (List Nat)) (tot : Nat) :
    (incr_loop display w p t
        ((XEvent.PropertyNotify pw.w pw.property PropertyNewValue, get_property t pw) :: rest)
        acc tot).map (fun r => (r.incr_buf, r.total_size)) =
      (incr_loop display w p t rest (some (acc.getD [] ++ pw.data.take pw.nelements))
        ((tot + pw.nelements) % WORD)).map (fun r => (r.incr_buf, r.total_size)) := by
  have hne : pw.nelements ≠ 0 := by omega
  simp [incr_loop, incr_skip, get_property, property_bytes, hw, hp, ht, hf, Success, hne,
    Option.map_map, Function.comp_def]

/-- The INCR loop reading a property written with no item: the loop ends. -/
theorem incr_loop_end (display : Display) (w : Window) (p t : Atom) (pw : PropWrite)
    (hw : pw.w = w) (hp : pw.property = p) (hn : pw.nelements = 0)
    (rest : List (XEvent × GetPropResult)) (acc : Option (List Nat)) (tot : Nat) :
    (incr_loop display w p t
        ((XEvent.PropertyNotify pw.w pw.property PropertyNewValue, get_property t pw) :: rest)
        acc tot).map (fun r => (r.incr_buf, r.total_size)) = some (acc, tot) := by
  have hr : (get_property t pw).ret = Success := by
    unfold get_property; split <;> rfl
  have hg : (get_property t pw).size = 0 := by
    unfold get_property; split <;> simp [hn]
  simp [incr_loop, incr_skip, hw, hp, hg, hr]

theorem incr_transfer_aux (chunk : Nat) (o : Owner) (reg : Registry)
    (d : Display) (w : Window) (p t : Atom) (B : List Nat) (hB : B.length < WORD)
    (hfresh : find_incr_state reg w p = none) (display : Display) :
    ∀ (Rs : List Int) (off : Nat) (acc : Option (List Nat)),
      off ≤ B.length → 1 ≤ Rs.length → B.length - off ≤ (Rs.length - 1) * chunk →
      acc.getD [] = B.take off → (off = B.length → acc = some B) →
      (owner_loop chunk o 1 (reg ++ [transfer d w p t B off])
        (Rs.map fun R => (XEvent.PropertyNotify w p PropertyDelete, R))).reg = reg ∧
      (owner_loop chunk o 1 (reg ++ [transfer d w p t B off])
        (Rs.map fun R => (XEvent.PropertyNotify w p PropertyDelete, R))).ret = none ∧
      (incr_loop display w p t
        (chunk_events t (owner_loop chunk o 1 (reg ++ [transfer d w p t B off])
          (Rs.map fun R => (XEvent.PropertyNotify w p PropertyDelete, R))).calls)
        acc off).map (fun r => (r.incr_buf, r.total_size)) = some (some B, B.length) := by
  intro Rs
  induction Rs with
  | nil => intro off acc _ h1; simp at h1
  | cons R Rs ih =>
    intro off acc hoff _ hbound hacc hfin
    have hev := owner_event_delete_last chunk o reg d w p t B off R hB hoff hfresh
    rw [List.map_cons, owner_loop_cons_none _ _ _ _ _ _ _ (by rw [hev]; split <;> rfl)]
    simp only [List.length_cons, Nat.add_sub_cancel] at hbound
    by_cases hlt : off < B.length
    · have hpos : 0 < min chunk (B.length - off) := by
        rcases Nat.eq_zero_or_pos chunk with h0 | h0
        · subst h0; simp only [Nat.mul_zero] at hbound; omega
        · omega
      rw [if_pos hpos] at hev
      simp only [hev]
      obtain ⟨m, hm⟩ : ∃ m, Rs.length = m + 1 := by
        rcases Nat.eq_zero_or_pos Rs.length with h0 | h0
        · rw [h0] at hbound; simp only [Nat.zero_mul] at hbound; omega
        · exact ⟨Rs.length - 1, by omega⟩
      have hbound2 : B.length - (off + min chunk (B.length - off)) ≤
          (Rs.length - 1) * chunk := by
        rw [hm] at hbound ⊢
        rw [Nat.add_mul, Nat.one_mul] at hbound
        simp only [Nat.add_sub_cancel]
        omega
      obtain ⟨h1, h2, h3⟩ := ih (off + min chunk (B.length - off))
        (some (B.take (off + min chunk (B.length - off)))) (by omega) (by omega) hbound2
        (by simp) (by intro h; rw [h, List.take_length])
      refine ⟨h1, h2, ?_⟩
      simp only [chunk_events_append, chunk_events, List.nil_append, List.cons_append,
        if_neg (show ¬ ((1 : Int) = 0) by decide)]
      have hstep := incr_loop_chunk display w p t
        { display := d, w := w, property := p, type := t, format := 8,
          mode := PropModeReplace,
          data := (B.drop off).take (min chunk (B.length - off)),
          nelements := min chunk (B.length - off) } rfl rfl rfl rfl hpos
      simp only at hstep
      rw [hstep]
      have hmod : (off + min chunk (B.length - off)) % WORD =
          off + min chunk (B.length - off) := by
        apply Nat.mod_eq_of_lt
        simp only [WORD] at hB ⊢
        omega
      have hbuf : acc.getD [] ++
          List.take (min chunk (B.length - off))
            (List.take (min chunk (B.length - off)) (List.drop off B)) =
          B.take (off + min chunk (B.length - off)) := by
        rw [hacc, List.take_take, Nat.min_self, List.take_add]
      rw [hmod, hbuf]
      exact h3
    · have hz : ¬ 0 < min chunk (B.length - off) := by omega
      rw [if_neg hz] at hev
      simp only [hev]
      obtain ⟨h1, h2, h3⟩ := owner_loop_deletes_no_state chunk o reg w p hfresh t Rs
      refine ⟨h1, h2, ?_⟩
      simp only [chunk_events_append, chunk_events, List.nil_append, List.cons_append,
        if_neg (show ¬ ((1 : Int) = 0) by decide), h3]
      refine (incr_loop_end display w p t
        { display := d, w := w, property := p, type := t, format := 8,
          mode := PropModeReplace, data := [], nelements := 0 } rfl rfl rfl _ acc off).trans ?_
      rw [hfin (by omega), show off = B.length by omega]

/-! ## C1: round trip of a payload above the threshold -/

/-- C1 as stated fails when the registry still holds a transfer state of the requestor's
window and property. Window 7 requests a payload of 262145 bytes and takes one chunk: the
registry holds its state at offset 65536. After `add_incr_state` for a second request of
the same window and property, the six property-delete notifications that a transfer of
262145 bytes takes are served, by `find_incr_state`, from the older state: the writes,
fed in order to the INCR loop of `read_data`, make it end with a total of 196609, not
262145, and the new state is left in the registry. -/
theorem stale_state_breaks_round_trip :
    large_owner.buf.length = 262145 ∧
    (owner_loop INCR_CHUNK_SIZE large_owner 0 []
        [(XEvent.SelectionRequest (request_from 7), 1),
         (XEvent.PropertyNotify 7 9 PropertyDelete, 0)]).reg.map
        (fun s => (key s, s.offset, s.total_size)) = [((7, 9), 65536, 262145)] ∧
    (0 < INCR_CHUNK_SIZE ∧ INCR_THRESHOLD < 262145 ∧ 262145 < WORD ∧
      (262145 + INCR_CHUNK_SIZE - 1) / INCR_CHUNK_SIZE + 1 ≤
        (List.replicate 6 (0 : Int)).length) ∧
    (incr_loop 2 7 9 5
      (chunk_events 5 (owner_loop INCR_CHUNK_SIZE large_owner 1
        (add_incr_state
          (owner_loop INCR_CHUNK_SIZE large_owner 0 []
            [(XEvent.SelectionRequest (request_from 7), 1),
             (XEvent.PropertyNotify 7 9 PropertyDelete, 0)]).reg
          1 7 9 5 large_owner.buf 262145)
        ((List.replicate 6 (0 : Int)).map
          fun R => (XEvent.PropertyNotify 7 9 PropertyDelete, R))).calls)
      none 0).map (fun r => r.total_size) = some 196609 ∧
    (owner_loop INCR_CHUNK_SIZE large_owner 1
        (add_incr_state
          (owner_loop INCR_CHUNK_SIZE large_owner 0 []
            [(XEvent.SelectionRequest (request_from 7), 1),
             (XEvent.PropertyNotify 7 9 PropertyDelete, 0)]).reg
          1 7 9 5 large_owner.buf 262145)
        ((List.replicate 6 (0 : Int)).map
          fun R => (XEvent.PropertyNotify 7 9 PropertyDelete, R))).reg.map
        (fun s => (key s, s.offset, s.total_size)) = [((7, 9), 65536, 262145)] :=
  ⟨List.length_replicate _ _, by decide, by decide, by decide, by decide⟩

/-- C1, amended. For every payload `B` longer than `INCR_THRESHOLD` (and, as a `size_t` length,
below `2 ^ 64`) and every positive chunk size: after `add_incr_state` for a key not yet
in the registry, let the event loop of the owner handle property-delete notifications for
that key, at least `ceil (len B / chunk) + 1` of them, so that the state is removed (the
registry is back to what it was). The property writes it makes, fed in order to the INCR
loop of `read_data` for the same window, property and target, make the loop end with a
buffer equal to `B` and a total of `len B`; `read_data`, entered on a reply of type INCR,
returns `len B` and hands `B` to a non-null `buf`. -/
theorem incr_round_trip (chunk : Nat) (o : Owner) (reg : Registry) (d : Display)
    (w : Window) (p t : Atom) (B : List Nat) (Rs : List Int) (display : Display)
    (hchunk : 0 < chunk) (hlarge : INCR_THRESHOLD < B.length) (hB : B.length < WORD)
    (hfresh : find_incr_state reg w p = none)
    (hRs : (B.length + chunk - 1) / chunk + 1 ≤ Rs.length) :
    (owner_loop chunk o 1 (add_incr_state reg d w p t B B.length)
      (Rs.map fun R => (XEvent.PropertyNotify w p PropertyDelete, R))).reg = reg ∧
    (incr_loop display w p t
      (chunk_events t (owner_loop chunk o 1 (add_incr_state reg d w p t B B.length)
        (Rs.map fun R => (XEvent.PropertyNotify w p PropertyDelete, R))).calls)
      none 0).map (fun r => (r.incr_buf, r.total_size)) = some (some B, B.length) ∧
    ∀ (env : XEnv) (sev : XSelectionEvent) (sel : Atom) (first : GetPropResult) (buf : Bool),
      initX11 env = true → sev.property = p → sev.selection = sel → p ≠ None →
      first.ret = Success → first.actual = env.XInternAtom "INCR" false →
      (read_data env display w sev sel p t buf first
        (chunk_events t (owner_loop chunk o 1 (add_incr_state reg d w p t B B.length)
          (Rs.map fun R => (XEvent.PropertyNotify w p PropertyDelete, R))).calls)).map
        (fun r => (r.ret, r.buf)) = some (B.length, if buf then some B else none) := by
  have hadd : add_incr_state reg d w p t B B.length = reg ++ [transfer d w p t B 0] := by
    simp [add_incr_state, transfer]
  have hpos : 0 < B.length := by
    simp only [INCR_THRESHOLD] at hlarge; omega
  have hlen : 1 ≤ Rs.length := Nat.le_trans (Nat.le_add_left 1 _) hRs
  have hbound : B.length - 0 ≤ (Rs.length - 1) * chunk := by
    have h1 : (B.length + chunk - 1) / chunk < Rs.length := Nat.lt_of_succ_le hRs
    have h2 := (Nat.div_lt_iff_lt_mul hchunk).mp h1
    obtain ⟨m, hm⟩ : ∃ m, Rs.length = m + 1 := ⟨Rs.length - 1, by omega⟩
    rw [hm, Nat.add_mul, Nat.one_mul] at h2
    rw [hm, Nat.add_sub_cancel]
    omega
  obtain ⟨h1, _, h3⟩ := incr_transfer_aux chunk o reg d w p t B hB hfresh display Rs 0 none
    (Nat.zero_le _) (by omega) hbound (by simp) (by intro h; omega)
  rw [hadd]
  refine ⟨h1, h3, ?_⟩
  intro env sev sel first buf hinit hprop hsel hp hret hact
  cases hloop : incr_loop display w p t
      (chunk_events t (owner_loop chunk o 1 (reg ++ [transfer d w p t B 0])
        (Rs.map fun R => (XEvent.PropertyNotify w p PropertyDelete, R))).calls) none 0 with
  | none => rw [hloop] at h3; cases h3
  | some r =>
    rw [hloop] at h3
    simp only [Option.map_some', Option.some.injEq, Prod.mk.injEq] at h3
    simp only [read_data, hinit, hprop, hsel, hp, hret, hact, hloop]
    cases buf <;> simp [h3.1, h3.2]

/-- C1, amended, at a payload of 262145 zero bytes, the chunk size of the source, six
notifications, and a registry that holds one other transfer. -/
theorem incr_round_trip_witness :
    (0 < INCR_CHUNK_SIZE ∧ INCR_THRESHOLD < (List.replicate 262145 0).length ∧
      (List.replicate 262145 0).length < WORD ∧
      find_incr_state [transfer 1 8 9 5 [1, 2] 0] 7 9 = none ∧
      ((List.replicate 262145 0).length + INCR_CHUNK_SIZE - 1) / INCR_CHUNK_SIZE + 1 ≤
        (List.replicate 6 (1 : Int)).length) ∧
    (incr_loop 2 7 9 5
      (chunk_events 5 (owner_loop INCR_CHUNK_SIZE
        { d := 1, w := 3, sel := 10, atomString := 5, atomImage := 6, targetsAtom := 11,
          incrAtom := 12, target := 5, buf := List.replicate 262145 0, n := 262145,
          handle := 0 } 1
        (add_incr_state [transfer 1 8 9 5 [1, 2] 0] 1 7 9 5 (List.replicate 262145 0)
          (List.replicate 262145 0).length)
        ((List.replicate 6 (1 : Int)).map
          fun R => (XEvent.PropertyNotify 7 9 PropertyDelete, R))).calls)
      none 0).map (fun r => (r.incr_buf, r.total_size)) =
      some (some (List.replicate 262145 0), (List.replicate 262145 0).length) :=
  ⟨⟨by decide, by rw [List.length_replicate]; decide, by rw [List.length_replicate]; decide,
      by decide, by rw [List.length_replicate, List.length_replicate]; decide⟩,
    (incr_round_trip INCR_CHUNK_SIZE _ [transfer 1 8 9 5 [1, 2] 0] 1 7 9 5
      (List.replicate 262145 0) (List.replicate 6 (1 : Int)) 2 (by decide)
      (by rw [List.length_replicate]; decide) (by rw [List.length_replicate]; decide)
      (by decide)
      (by rw [List.length_replicate, List.length_replicate]; decide)).2.1⟩

/-! ## C2: round trip of a payload up to the threshold -/

/-- C2 as stated fails for a content type that is neither UTF8_STRING nor image/png:
with the type STRING (atom 31, so that neither call fails with -2), a payload of two
bytes and the reply sent, the owner declines the request and the read returns length 0
and no bytes. -/
theorem round_trip_fails_for_other_type :
    sample_env.XInternAtom "STRING" true ≠ None ∧
    ([104, 105] : List Nat).length < INCR_THRESHOLD ∧
    bit2_clear 1 = true ∧
    (read_reply { sample_env with libX11 := true } 1 7 100 105 31 true
      (reply_events
        (owner_event INCR_CHUNK_SIZE (owner_locals sample_env "STRING" [104, 105] 0 1 3) []
          (XEvent.SelectionRequest (convert_request 1 3 100 31 105 7)) 1).calls 1 7)).map
      (fun r => (r.ret, r.buf)) = some (0, none) := by
  decide

/-- C2, amended. For a content type `typ` whose atom is that of UTF8_STRING or of
image/png and a payload `B` of at most `INCR_THRESHOLD` bytes: when the event loop of
`clipboard_write(typ, B)` handles the request that `clipboard_read(typ)` issues from its
window `wr` for its reply property, and sends the reply (`XChangeProperty` returns a value
with bit 2 clear), then `read_data`, run by `clipboard_read` with a non-null `buf` on the
events the window receives, returns `len B` and the bytes `B`. The X server gives INCR an
atom other than the type's, and the reply property an atom other than `None`. -/
theorem small_round_trip (chunk : Nat) (env : XEnv) (typ : String) (B : List Nat)
    (handle : Nat) (d : Display) (w : Window) (reg : Registry) (R : Int) (dr : Display)
    (wr : Window)
    (hT : env.XInternAtom typ true = env.XInternAtom "UTF8_STRING" false ∨
      env.XInternAtom typ true = env.XInternAtom "image/png" false)
    (hsmall : B.length ≤ INCR_THRESHOLD)
    (hR : bit2_clear R = true)
    (hincr : env.XInternAtom "INCR" false ≠ env.XInternAtom typ true)
    (hprop : env.XInternAtom "GOLANG_DESIGN_DATA" false ≠ None) :
    (read_reply { env with libX11 := true } dr wr (env.XInternAtom "CLIPBOARD" false)
      (env.XInternAtom "GOLANG_DESIGN_DATA" false) (env.XInternAtom typ true) true
      (reply_events
        (owner_event chunk (owner_locals env typ B handle d w) reg
          (XEvent.SelectionRequest
            (convert_request d w (env.XInternAtom "CLIPBOARD" false)
              (env.XInternAtom typ true) (env.XInternAtom "GOLANG_DESIGN_DATA" false) wr))
          R).calls dr wr)).map
      (fun r => (r.ret, r.buf)) = some (B.length, some B) := by
  have hn : ¬ B.length > INCR_THRESHOLD := by omega
  have hmod : B.length % WORD = B.length := by
    simp only [INCR_THRESHOLD] at hsmall
    simp only [WORD]
    omega
  simp only [owner_event, selection_request, owner_locals, convert_request, ne_eq,
    not_true_eq_false, if_false, hT, and_self, if_true, hn, hR, reply_events,
    List.singleton_append, List.filterMap_cons, List.filterMap_nil, read_property, last_write,
    List.foldl_cons, List.foldl_nil, get_property, AnyPropertyType, true_or, read_reply,
    await_notify, read_data, initX11, Bool.not_true, Bool.false_eq_true, hprop, false_or,
    or_self, Success, hincr.symm, true_and, Option.map_some', List.take_take, Nat.min_self,
    List.take_length, hmod, Nat.mul_one, property_bytes]

/-- C2, amended, at the type UTF8_STRING and a payload of two bytes. -/
theorem small_round_trip_witness :
    ((sample_env.XInternAtom "UTF8_STRING" true = sample_env.XInternAtom "UTF8_STRING" false ∨
        sample_env.XInternAtom "UTF8_STRING" true =
          sample_env.XInternAtom "image/png" false) ∧
      ([104, 105] : List Nat).length ≤ INCR_THRESHOLD ∧ bit2_clear 1 = true ∧
      sample_env.XInternAtom "INCR" false ≠ sample_env.XInternAtom "UTF8_STRING" true ∧
      sample_env.XInternAtom "GOLANG_DESIGN_DATA" false ≠ None) ∧
    (read_reply { sample_env with libX11 := true } 1 7
      (sample_env.XInternAtom "CLIPBOARD" false)
      (sample_env.XInternAtom "GOLANG_DESIGN_DATA" false)
      (sample_env.XInternAtom "UTF8_STRING" true) true
      (reply_events
        (owner_event INCR_CHUNK_SIZE (owner_locals sample_env "UTF8_STRING" [104, 105] 0 1 3)
          []
          (XEvent.SelectionRequest
            (convert_request 1 3 (sample_env.XInternAtom "CLIPBOARD" false)
              (sample_env.XInternAtom "UTF8_STRING" true)
              (sample_env.XInternAtom "GOLANG_DESIGN_DATA" false) 7))
          1).calls 1 7)).map
      (fun r => (r.ret, r.buf)) = some (([104, 105] : List Nat).length, some [104, 105]) :=
  ⟨⟨by decide, by decide, by decide, by decide, by decide⟩,
    small_round_trip INCR_CHUNK_SIZE sample_env "UTF8_STRING" [104, 105] 0 1 3 [] 1 1 7
      (by decide) (by decide) (by decide) (by decide) (by decide)⟩

/-! ## C5: ownership revocation empties the registry -/

/-- C5. Whatever the registry holds, when the event loop of `clipboard_write` receives
`SelectionClear` it leaves the registry empty (`incr_count` is 0 and no key finds a
state), closes the display as its last call, and returns 0; events after it are not
read. -/
theorem selection_clear_empties_registry (chunk : Nat) (o : Owner) (notified : Int)
    (reg : Registry) (R : Int) (rest : List (XEvent × Int)) :
    (owner_loop chunk o notified reg ((XEvent.SelectionClear, R) :: rest)).reg = [] ∧
    incr_count (owner_loop chunk o notified reg ((XEvent.SelectionClear, R) :: rest)).reg = 0 ∧
    (∀ w p,
      find_incr_state (owner_loop chunk o notified reg ((XEvent.SelectionClear, R) :: rest)).reg
        w p = none) ∧
    (owner_loop chunk o notified reg ((XEvent.SelectionClear, R) :: rest)).calls =
      (if notified = 0 then [Call.syncStatus o.handle 1] else []) ++
        [Call.XNextEvent o.d, Call.XCloseDisplay o.d] ∧
    (owner_loop chunk o notified reg ((XEvent.SelectionClear, R) :: rest)).ret = some 0 := by
  have h : owner_loop chunk o notified reg ((XEvent.SelectionClear, R) :: rest) =
      { reg := [], calls := (if notified = 0 then [Call.syncStatus o.handle 1] else []) ++
          [Call.XNextEvent o.d, Call.XCloseDisplay o.d], ret := some 0 } := by
    simp [owner_loop, owner_event, selection_clear_loop_nil]
  rw [h]
  simp [incr_count, find_incr_state]

/-! ## Lemmas on swap-remove and on keys -/

theorem set_perm_cons_eraseIdx {α : Type} (l : List α) (i : Nat) (x : α)
    (h : i < l.length) : (l.set i x).Perm (x :: l.eraseIdx i) := by
  induction l generalizing i with
  | nil => simp at h
  | cons a rest ih =>
    cases i with
    | zero => simp
    | succ j =>
      simp only [List.set_cons_succ, List.eraseIdx_cons_succ]
      exact ((ih j (by simpa using h)).cons a).trans (List.Perm.swap x a _)

theorem remove_incr_state_concat (init : Registry) (last : incr_state_t) (i : Nat) :
    remove_incr_state (some i) (init ++ [last]) =
      if i < init.length then init.set i last else init := by
  have hlast : (init ++ [last])[(init ++ [last]).length - 1]? = some last := by simp
  simp only [remove_incr_state, hlast, incr_count]
  have hlen : (init ++ [last]).length - 1 = init.length := by simp
  by_cases h : i < init.length
  · have h' : (i : Int) < ((init ++ [last]).length : Int) - 1 := by
      simp only [List.length_append, List.length_singleton]; omega
    rw [if_pos h', if_pos h, hlen, List.set_append_left _ _ h, List.take_append_eq_append_take]
    simp
  · have h' : ¬ (i : Int) < ((init ++ [last]).length : Int) - 1 := by
      simp only [List.length_append, List.length_singleton]; omega
    rw [if_neg h', if_neg h, hlen]
    simp

/-- Swap-remove of an entry leaves the other entries, up to order. -/
theorem remove_incr_state_perm (reg : Registry) (i : Nat) (h : i < reg.length) :
    (remove_incr_state (some i) reg).Perm (reg.eraseIdx i) := by
  rcases List.eq_nil_or_concat reg with hnil | ⟨init, last, hreg⟩
  · subst hnil; simp at h
  · subst hreg
    rw [List.concat_eq_append] at h ⊢
    rw [remove_incr_state_concat]
    by_cases hi : i < init.length
    · rw [if_pos hi, List.eraseIdx_append_of_lt_length hi]
      exact (set_perm_cons_eraseIdx init i last hi).trans
        (List.perm_append_singleton last (init.eraseIdx i)).symm
    · have hi2 : i = init.length := by
        simp only [List.length_append, List.length_singleton] at h; omega
      rw [if_neg hi, hi2, List.eraseIdx_append_of_length_le (Nat.le_refl _)]
      simp

theorem keys_unique_remove (reg : Registry) (h : keys_unique reg) (st : Option Nat) :
    keys_unique (remove_incr_state st reg) := by
  cases st with
  | none => exact h
  | some i =>
    by_cases hi : i < reg.length
    · have hp := (remove_incr_state_perm reg i hi).map key
      exact (hp.nodup_iff).mpr ((List.Sublist.map key (List.eraseIdx_sublist reg i)).nodup h)
    · have hre : remove_incr_state (some i) reg = reg.take (reg.length - 1) := by
        have h' : ¬ (i : Int) < incr_count reg - 1 := by
          simp only [incr_count]; omega
        simp only [remove_incr_state, if_neg h']
      rw [hre]
      exact (List.Sublist.map key (List.take_sublist _ reg)).nodup h

theorem map_key_set_same (reg : Registry) (st : Nat) (s s' : incr_state_t)
    (h : reg[st]? = some s) (hk : key s' = key s) :
    (reg.set st s').map key = reg.map key := by
  induction reg generalizing st with
  | nil => rfl
  | cons a rest ih =>
    cases st with
    | zero =>
      simp only [List.getElem?_cons_zero, Option.some.injEq] at h
      subst h
      simp [hk]
    | succ j =>
      simp only [List.getElem?_cons_succ] at h
      simp [ih j h]

theorem keys_unique_send (reg : Registry) (h : keys_unique reg) (chunk st : Nat) :
    keys_unique (send_incr_chunk chunk st reg).2 := by
  unfold send_incr_chunk
  split
  · exact h
  · rename_i s hs
    split
    · show (List.map key (reg.set st _)).Nodup
      rw [map_key_set_same reg st s
        { s with offset := (s.offset + chunk_size chunk s) % WORD } hs rfl]
      exact h
    · exact keys_unique_remove reg h (some st)

theorem keys_unique_add (reg : Registry) (h : keys_unique reg) (d : Display) (w : Window)
    (p t : Atom) (data : List Nat) (size : Nat) (hfresh : find_incr_state reg w p = none) :
    keys_unique (add_incr_state reg d w p t data size) := by
  unfold keys_unique add_incr_state
  rw [List.map_append, List.nodup_append]
  refine ⟨h, by simp, ?_⟩
  intro k hk hk'
  simp only [List.map_cons, List.map_nil, List.mem_singleton] at hk'
  obtain ⟨s, hs, hsk⟩ := List.mem_map.mp hk
  have := (find_incr_state_none_iff reg w p).mp hfresh s hs
  apply this
  rw [hk'] at hsk
  simp only [key, Prod.mk.injEq] at hsk
  exact hsk

theorem keys_unique_loop (chunk : Nat) (o : Owner) (events : List (XEvent × Int)) :
    ∀ (notified : Int) (reg : Registry), keys_unique reg →
      fresh_requests chunk o reg events = true →
      keys_unique (owner_loop chunk o notified reg events).reg := by
  induction events with
  | nil => intro notified reg h _; exact h
  | cons e rest ih =>
    intro notified reg h hfresh
    obtain ⟨event, R⟩ := e
    simp only [fresh_requests, Bool.and_eq_true, Bool.or_eq_true] at hfresh
    have hstep : keys_unique (owner_event chunk o reg event R).reg := by
      cases event with
      | SelectionClear =>
        simp only [owner_event, selection_clear_loop_nil]
        exact List.nodup_nil
      | PropertyNotify window atom state =>
        simp only [owner_event]
        split
        · split
          · exact keys_unique_send reg h _ _
          · exact h
        · exact h
      | SelectionNotify sev => exact h
      | SelectionRequest xsr =>
        have hf := hfresh.1
        simp only [starts_incr, Bool.or_eq_true, Bool.not_eq_true', decide_eq_false_iff_not,
          Option.isNone_iff_eq_none] at hf
        simp only [owner_event, selection_request]
        split
        · exact h
        · rename_i hsel
          split
          · rename_i htar
            split
            · rename_i hn
              refine keys_unique_add reg h _ _ _ _ _ _ ?_
              rcases hf with hf | hf
              · exact absurd ⟨not_not.mp hsel, htar, hn⟩ hf
              · exact hf
            · exact h
          · split <;> exact h
      | Other t => exact h
    simp only [owner_loop]
    split
    · exact hstep
    · rename_i hret
      rcases hfresh.2 with h2 | h2
      · rw [hret] at h2; cases h2
      · exact ih 1 _ hstep h2

/-! ## C6: one transfer state per (requestor, property) -/

/-- C6 as stated fails: from the empty registry, two requests of the same requestor for
the same property, for a payload of 262145 bytes, leave two transfer states with the same
(requestor, property). -/
theorem duplicate_key_reachable :
    ({ d := 1, w := 3, sel := 10, atomString := 5, atomImage := 6, targetsAtom := 11,
       incrAtom := 12, target := 5, buf := List.replicate 262145 0, n := 262145,
       handle := 0 } : Owner).buf.length = 262145 ∧
    ¬ keys_unique (owner_loop INCR_CHUNK_SIZE
      { d := 1, w := 3, sel := 10, atomString := 5, atomImage := 6, targetsAtom := 11,
        incrAtom := 12, target := 5, buf := List.replicate 262145 0, n := 262145,
        handle := 0 } 0 []
      [(XEvent.SelectionRequest
          { display := 1, owner := 3, requestor := 7, selection := 10, target := 5,
            property := 9, time := 0 }, 1),
       (XEvent.SelectionRequest
          { display := 1, owner := 3, requestor := 7, selection := 10, target := 5,
            property := 9, time := 0 }, 1)]).reg :=
  ⟨List.length_replicate _ _, by decide⟩

/-- C6, amended. In every state the event loop reaches from the empty registry, by any
sequence of events in which no request that starts an incremental transfer names a
(requestor, property) that still has a transfer state, the registry holds at most one
state per (requestor, property). -/
theorem keys_unique_reachable (chunk : Nat) (o : Owner) (notified : Int)
    (events : List (XEvent × Int)) (h : fresh_requests chunk o [] events = true) :
    keys_unique (owner_loop chunk o notified [] events).reg :=
  keys_unique_loop chunk o events notified [] List.nodup_nil h

/-- C6, amended, at two requests of different requestors and a property-delete
notification. -/
theorem keys_unique_reachable_witness :
    fresh_requests INCR_CHUNK_SIZE
      { d := 1, w := 3, sel := 10, atomString := 5, atomImage := 6, targetsAtom := 11,
        incrAtom := 12, target := 5, buf := List.replicate 262145 0, n := 262145,
        handle := 0 } []
      [(XEvent.SelectionRequest
          { display := 1, owner := 3, requestor := 7, selection := 10, target := 5,
            property := 9, time := 0 }, 1),
       (XEvent.SelectionRequest
          { display := 1, owner := 3, requestor := 8, selection := 10, target := 5,
            property := 9, time := 0 }, 1),
       (XEvent.PropertyNotify 7 9 PropertyDelete, 0)] = true ∧
    keys_unique (owner_loop INCR_CHUNK_SIZE
      { d := 1, w := 3, sel := 10, atomString := 5, atomImage := 6, targetsAtom := 11,
        incrAtom := 12, target := 5, buf := List.replicate 262145 0, n := 262145,
        handle := 0 } 0 []
      [(XEvent.SelectionRequest
          { display := 1, owner := 3, requestor := 7, selection := 10, target := 5,
            property := 9, time := 0 }, 1),
       (XEvent.SelectionRequest
          { display := 1, owner := 3, requestor := 8, selection := 10, target := 5,
            property := 9, time := 0 }, 1),
       (XEvent.PropertyNotify 7 9 PropertyDelete, 0)]).reg :=
  ⟨by decide, keys_unique_reachable _ _ _ _ (by decide)⟩

/-! ## C7: the offset invariant -/

/-- C7. In a registry whose entries all satisfy `offset ≤ total_size`: the registry
after `add_incr_state` (whose new entry has offset 0), after `send_incr_chunk`, after
`remove_incr_state` and after any run of the event loop satisfies it again, and for
every entry the subtraction `total_size - offset` of `send_incr_chunk` does not wrap:
taken modulo `2 ^ 64` it is the exact difference. -/
theorem offset_invariant (reg : Registry) (h : offset_inv reg) :
    (∀ d r p t data size, offset_inv (add_incr_state reg d r p t data size)) ∧
    (∀ chunk st, offset_inv (send_incr_chunk chunk st reg).2) ∧
    (∀ st, offset_inv (remove_incr_state st reg)) ∧
    (∀ chunk o notified events, offset_inv (owner_loop chunk o notified reg events).reg) ∧
    (∀ s ∈ reg, s.offset ≤ s.total_size ∧
      (s.total_size < WORD →
        (s.total_size + WORD - s.offset) % WORD = s.total_size - s.offset)) := by
  refine ⟨offset_inv_add reg h, offset_inv_send reg h, offset_inv_remove reg h,
    fun chunk o notified events => offset_inv_loop chunk o events notified reg h, ?_⟩
  intro s hs
  have hle := h s hs
  refine ⟨hle, fun hlt => ?_⟩
  simp only [WORD] at hlt ⊢
  omega

/-- C7 at a registry of two transfers, one under way and one complete. -/
theorem offset_invariant_witness :
    offset_inv
        [{ data := [1, 2, 3], total_size := 3, offset := 1, display := 1, requestor := 7,
           property := 9, target := 5 },
         { data := [4, 5], total_size := 2, offset := 2, display := 1, requestor := 8,
           property := 9, target := 5 }] ∧
      offset_inv (send_incr_chunk 2 0
        [{ data := [1, 2, 3], total_size := 3, offset := 1, display := 1, requestor := 7,
           property := 9, target := 5 },
         { data := [4, 5], total_size := 2, offset := 2, display := 1, requestor := 8,
           property := 9, target := 5 }]).2 :=
  ⟨by decide, (offset_invariant _ (by decide)).2.1 2 0⟩

/-! ## C8: transfers to different requestors do not interfere -/

theorem lookup_eq_find (reg : Registry) (w : Window) (p : Atom) :
    lookup reg w p = reg.find? fun s => decide (s.requestor = w ∧ s.property = p) := by
  induction reg with
  | nil => rfl
  | cons a rest ih =>
    unfold lookup at ih ⊢
    simp only [find_incr_state, List.find?_cons]
    by_cases h : a.requestor = w ∧ a.property = p
    · simp [h]
    · simp only [h, if_false, decide_False]
      rw [← ih]
      cases find_incr_state rest w p <;> simp

theorem lookup_some (reg : Registry) (w : Window) (p : Atom) (s : incr_state_t)
    (h : lookup reg w p = some s) : s ∈ reg ∧ s.requestor = w ∧ s.property = p := by
  rw [lookup_eq_find] at h
  exact ⟨List.mem_of_find?_eq_some h, by simpa using List.find?_some h⟩

theorem lookup_of_mem (reg : Registry) (huniq : keys_unique reg) (s : incr_state_t)
    (hs : s ∈ reg) : lookup reg s.requestor s.property = some s := by
  cases hl : lookup reg s.requestor s.property with
  | none =>
    rw [lookup_eq_find, List.find?_eq_none] at hl
    simpa using hl s hs
  | some s' =>
    obtain ⟨hmem, hw, hp⟩ := lookup_some reg _ _ s' hl
    have := List.inj_on_of_nodup_map huniq hmem hs (by simp [key, hw, hp])
    rw [this]

theorem find_incr_state_lookup (reg : Registry) (w : Window) (p : Atom) (i : Nat)
    (h : find_incr_state reg w p = some i) : reg[i]? = lookup reg w p := by
  simp [lookup, h]

/-- C8 as stated fails. The registry is the one the event loop reaches when window 7
requests once and window 8 twice, window 8 has taken one chunk and window 7 all of its
chunks. Both keys have states and the state found for (8, 9) is at offset 65536; after
the property-delete notification for (7, 9), which removes that key's state, the state
found for (8, 9) is another one, at offset 0. -/
theorem cross_talk_with_duplicate_key :
    ((7, 9) : Window × Atom) ≠ (8, 9) ∧
    (lookup (owner_loop INCR_CHUNK_SIZE large_owner 0 [] overlapping_requests).reg 7 9).isSome ∧
    (lookup (owner_loop INCR_CHUNK_SIZE large_owner 0 [] overlapping_requests).reg 8 9).map
        (fun s => s.offset) = some 65536 ∧
    (lookup (owner_event INCR_CHUNK_SIZE large_owner
        (owner_loop INCR_CHUNK_SIZE large_owner 0 [] overlapping_requests).reg
        (XEvent.PropertyNotify 7 9 PropertyDelete) 0).reg 8 9).map
        (fun s => s.offset) = some 0 := by
  decide

/-- C8, amended. In a registry with at most one state per key, for two different keys
that both have a state, handling the property-delete notification for the first (whether
`send_incr_chunk` advances its state or removes it) leaves the state found for the second
the same in every field, and every call made is a property write on the first key's
window and property. -/
theorem no_cross_talk (chunk : Nat) (o : Owner) (reg : Registry) (w1 w2 : Window)
    (p1 p2 : Atom) (R : Int) (huniq : keys_unique reg) (hne : (w1, p1) ≠ (w2, p2))
    (h1 : (lookup reg w1 p1).isSome = true) (h2 : (lookup reg w2 p2).isSome = true) :
    lookup (owner_event chunk o reg (XEvent.PropertyNotify w1 p1 PropertyDelete) R).reg
        w2 p2 = lookup reg w2 p2 ∧
    ∀ c ∈ (owner_event chunk o reg (XEvent.PropertyNotify w1 p1 PropertyDelete) R).calls,
      ∃ pw, c = Call.XChangeProperty pw ∧ pw.w = w1 ∧ pw.property = p1 := by
  obtain ⟨s2, hs2⟩ := Option.isSome_iff_exists.mp h2
  obtain ⟨hmem2, hw2, hp2⟩ := lookup_some reg w2 p2 s2 hs2
  cases hfind : find_incr_state reg w1 p1 with
  | none => simp [lookup, hfind] at h1
  | some i1 =>
    obtain ⟨s1, hs1⟩ := Option.isSome_iff_exists.mp h1
    have hget : reg[i1]? = some s1 := by rw [find_incr_state_lookup reg w1 p1 i1 hfind, hs1]
    obtain ⟨_, hw1, hp1⟩ := lookup_some reg w1 p1 s1 hs1
    have hs12 : s2 ≠ s1 := by
      intro h; subst h
      exact hne (by rw [← hw1, ← hp1, hw2, hp2])
    obtain ⟨j, hj⟩ := List.mem_iff_getElem?.mp hmem2
    have hji : j ≠ i1 := by
      intro h; subst h
      rw [hget] at hj
      exact hs12 (Option.some.inj hj).symm
    have hreg : (owner_event chunk o reg (XEvent.PropertyNotify w1 p1 PropertyDelete) R).reg =
        (send_incr_chunk chunk i1 reg).2 := by
      simp [owner_event, hfind]
    have hcalls : (owner_event chunk o reg (XEvent.PropertyNotify w1 p1 PropertyDelete) R).calls =
        (send_incr_chunk chunk i1 reg).1 := by
      simp [owner_event, hfind]
    rw [hreg, hcalls, hs2]
    have huniq2 := keys_unique_send reg huniq chunk i1
    have hlt : i1 < reg.length := (List.getElem?_eq_some.mp hget).1
    constructor
    · have hmem : s2 ∈ (send_incr_chunk chunk i1 reg).2 := by
        simp only [send_incr_chunk, hget]
        split
        · exact List.mem_iff_getElem?.mpr ⟨j, by
            show (reg.set i1 _)[j]? = some s2
            rw [List.getElem?_set_ne (Ne.symm hji)]; exact hj⟩
        · exact (remove_incr_state_perm reg i1 hlt).mem_iff.mpr
            (List.mem_eraseIdx_iff_getElem?.mpr ⟨j, hji, hj⟩)
      have := lookup_of_mem _ huniq2 s2 hmem
      rw [hw2, hp2] at this
      exact this
    · intro c hc
      simp only [send_incr_chunk, hget] at hc
      split at hc <;>
        · simp only [List.mem_singleton] at hc
          exact ⟨_, hc, hw1, hp1⟩

/-- C8, amended, at a registry with one transfer for window 7 and one for window 8. -/
theorem no_cross_talk_witness :
    (keys_unique [transfer 1 7 9 5 [1, 2, 3] 3, transfer 1 8 9 5 [4, 5] 1] ∧
      ((7, 9) : Window × Atom) ≠ (8, 9) ∧
      (lookup [transfer 1 7 9 5 [1, 2, 3] 3, transfer 1 8 9 5 [4, 5] 1] 7 9).isSome = true ∧
      (lookup [transfer 1 7 9 5 [1, 2, 3] 3, transfer 1 8 9 5 [4, 5] 1] 8 9).isSome = true) ∧
    lookup (owner_event 2 large_owner
        [transfer 1 7 9 5 [1, 2, 3] 3, transfer 1 8 9 5 [4, 5] 1]
        (XEvent.PropertyNotify 7 9 PropertyDelete) 0).reg 8 9 =
      lookup [transfer 1 7 9 5 [1, 2, 3] 3, transfer 1 8 9 5 [4, 5] 1] 8 9 :=
  ⟨⟨by decide, by decide, by decide, by decide⟩,
    (no_cross_talk 2 large_owner _ 7 8 9 9 0 (by decide) (by decide) (by decide)
      (by decide)).1⟩

/-! ## C9: the reply to a TARGETS request -/

/-- C9 as stated fails for a request that names another selection: a `SelectionRequest`
for the selection 1 (PRIMARY) whose target is the TARGETS atom makes the owner of
CLIPBOARD write no property and send no event. -/
theorem targets_request_for_other_selection :
    ({ display := 1, owner := 3, requestor := 7, selection := 1, target := 103,
       property := 105, time := 0 } : XSelectionRequestEvent).target =
      (owner_locals sample_env "UTF8_STRING" [104, 105] 0 1 3).targetsAtom ∧
    (owner_event INCR_CHUNK_SIZE (owner_locals sample_env "UTF8_STRING" [104, 105] 0 1 3) []
      (XEvent.SelectionRequest
        { display := 1, owner := 3, requestor := 7, selection := 1, target := 103,
          property := 105, time := 0 }) 1).calls = [] := by
  decide

/-- C9, amended. Whatever the caller's type, the payload and the registry, a
`SelectionRequest` on the clipboard selection whose target is the TARGETS atom is answered
by one property write, of the list of the two atoms UTF8_STRING and image/png, of type
`XA_ATOM` and format 32, on the requested property of the requestor, followed by the
`SelectionNotify` reply when the write's result has bit 2 clear; the registry is left as
it is. The X server gives TARGETS an atom other than those of UTF8_STRING and image/png. -/
theorem targets_reply (chunk : Nat) (o : Owner) (reg : Registry)
    (xsr : XSelectionRequestEvent) (R : Int) (hsel : xsr.selection = o.sel)
    (htar : xsr.target = o.targetsAtom) (hS : o.targetsAtom ≠ o.atomString)
    (hI : o.targetsAtom ≠ o.atomImage) :
    owner_event chunk o reg (XEvent.SelectionRequest xsr) R =
      { reg := reg,
        calls :=
          [Call.XChangeProperty
             { display := xsr.display, w := xsr.requestor, property := xsr.property,
               type := XA_ATOM, format := 32, mode := PropModeReplace,
               data := [o.atomString, o.atomImage], nelements := 2 }] ++
          (if bit2_clear R then
            [Call.XSendEvent o.d xsr.requestor
               { type := SelectionNotify, display := xsr.display,
                 requestor := xsr.requestor, selection := xsr.selection,
                 target := xsr.target, property := xsr.property, time := xsr.time }]
           else []),
        ret := none } := by
  simp [owner_event, selection_request, hsel, htar, hS, hI]

/-- C9, amended, at two TARGETS requests with different registries: the same write. -/
theorem targets_reply_witness :
    ((request_from 7).selection = large_owner.sel ∧
      ({ request_from 7 with target := 11 } : XSelectionRequestEvent).target =
        large_owner.targetsAtom ∧
      large_owner.targetsAtom ≠ large_owner.atomString ∧
      large_owner.targetsAtom ≠ large_owner.atomImage) ∧
    (owner_event INCR_CHUNK_SIZE large_owner [] (XEvent.SelectionRequest
        { request_from 7 with target := 11 }) 1).calls =
      (owner_event INCR_CHUNK_SIZE large_owner [transfer 1 8 9 5 [4, 5] 1]
        (XEvent.SelectionRequest { request_from 7 with target := 11 }) 1).calls :=
  ⟨⟨by decide, by decide, by decide, by decide⟩, by
    rw [targets_reply INCR_CHUNK_SIZE large_owner [] { request_from 7 with target := 11 } 1
        (by decide) (by decide) (by decide) (by decide),
      targets_reply INCR_CHUNK_SIZE large_owner [transfer 1 8 9 5 [4, 5] 1]
        { request_from 7 with target := 11 } 1 (by decide) (by decide) (by decide)
        (by decide)]⟩

/-! ## C10: the empty payload -/

theorem bit2_clear_zero : bit2_clear 0 = true := by decide

/-- C10. For every content type `typ`, when the event loop of `clipboard_write(typ, "")`
answers the request that `clipboard_read(typ)` issues from its window `wr` (the reply is
sent: `XChangeProperty` returns a value with bit 2 clear, or the request is declined),
`read_data`, run by `clipboard_read` on the events the window receives, returns 0, which
is not one of the error codes `2 ^ 64 - 1` and `2 ^ 64 - 2`. The X server gives INCR an atom
other than UTF8_STRING, image/png and ATOM, and TARGETS one other than ATOM. -/
theorem empty_payload_reads_zero (chunk : Nat) (env : XEnv) (typ : String) (handle : Nat)
    (d : Display) (w : Window) (reg : Registry) (R : Int) (dr : Display) (wr : Window)
    (buf : Bool) (hR : bit2_clear R = true) (hatoms : atoms_distinct env) :
    (read_reply { env with libX11 := true } dr wr (env.XInternAtom "CLIPBOARD" false)
      (env.XInternAtom "GOLANG_DESIGN_DATA" false) (env.XInternAtom typ true) buf
      (reply_events
        (owner_event chunk (owner_locals env typ [] handle d w) reg
          (XEvent.SelectionRequest
            (convert_request d w (env.XInternAtom "CLIPBOARD" false)
              (env.XInternAtom typ true) (env.XInternAtom "GOLANG_DESIGN_DATA" false) wr))
          R).calls dr wr)).map
      (fun r => r.ret) = some 0 ∧
    (0 : Nat) ≠ WORD - 1 ∧ (0 : Nat) ≠ WORD - 2 := by
  obtain ⟨hiS, hiI, hiA, htA⟩ := hatoms
  refine ⟨?_, by decide, by decide⟩
  have hn : ¬ ([] : List Nat).length > INCR_THRESHOLD := by decide
  by_cases hprop : env.XInternAtom "GOLANG_DESIGN_DATA" false = None
  · by_cases h1 : env.XInternAtom typ true = env.XInternAtom "UTF8_STRING" false ∨
        env.XInternAtom typ true = env.XInternAtom "image/png" false
    · simp [owner_event, selection_request, owner_locals, convert_request, h1, hR,
        reply_events, read_reply, await_notify, read_data, initX11, hprop]
    · by_cases h2 : env.XInternAtom typ true = env.XInternAtom "TARGETS" false
      · have h1' : ¬ (env.XInternAtom "TARGETS" false = env.XInternAtom "UTF8_STRING" false ∨
            env.XInternAtom "TARGETS" false = env.XInternAtom "image/png" false) := h2 ▸ h1
        simp [owner_event, selection_request, owner_locals, convert_request, h1', h2, hR,
          reply_events, read_reply, await_notify, read_data, initX11, hprop]
      · simp [owner_event, selection_request, owner_locals, convert_request, h1, h2, hR,
          reply_events, read_reply, await_notify, read_data, initX11, hprop, bit2_clear_zero]
  · by_cases h1 : env.XInternAtom typ true = env.XInternAtom "UTF8_STRING" false ∨
        env.XInternAtom typ true = env.XInternAtom "image/png" false
    · have hincr : env.XInternAtom "INCR" false ≠ env.XInternAtom typ true := by
        rcases h1 with h | h <;> rw [h] <;> assumption
      cases buf <;>
        simp [owner_event, selection_request, owner_locals, convert_request, h1, hn, hR,
          reply_events, read_property, last_write, get_property, AnyPropertyType, read_reply,
          await_notify, read_data, initX11, hprop, Success, hincr.symm, WORD]
    · by_cases h2 : env.XInternAtom typ true = env.XInternAtom "TARGETS" false
      · have h3 : ¬ (XA_ATOM = env.XInternAtom "INCR" false) := fun h => hiA h.symm
        have h4 : ¬ (XA_ATOM = env.XInternAtom "TARGETS" false) := fun h => htA h.symm
        have h1' : ¬ (env.XInternAtom "TARGETS" false = env.XInternAtom "UTF8_STRING" false ∨
            env.XInternAtom "TARGETS" false = env.XInternAtom "image/png" false) := h2 ▸ h1
        cases buf <;>
          simp [owner_event, selection_request, owner_locals, convert_request, h1', h2, hR,
            reply_events, read_property, last_write, get_property, AnyPropertyType,
            read_reply, await_notify, read_data, initX11, hprop, Success, h3, h4]
      · simp [owner_event, selection_request, owner_locals, convert_request, h1, h2, hR,
          reply_events, read_reply, await_notify, read_data, initX11, bit2_clear_zero]

/-- C10 at the type UTF8_STRING, which the owner serves. -/
theorem empty_payload_reads_zero_witness :
    (bit2_clear 1 = true ∧ atoms_distinct sample_env) ∧
    (read_reply { sample_env with libX11 := true } 1 7
      (sample_env.XInternAtom "CLIPBOARD" false)
      (sample_env.XInternAtom "GOLANG_DESIGN_DATA" false)
      (sample_env.XInternAtom "UTF8_STRING" true) true
      (reply_events
        (owner_event INCR_CHUNK_SIZE (owner_locals sample_env "UTF8_STRING" [] 0 1 3) []
          (XEvent.SelectionRequest
            (convert_request 1 3 (sample_env.XInternAtom "CLIPBOARD" false)
              (sample_env.XInternAtom "UTF8_STRING" true)
              (sample_env.XInternAtom "GOLANG_DESIGN_DATA" false) 7))
          1).calls 1 7)).map
      (fun r => r.ret) = some 0 :=
  ⟨⟨by decide, by decide⟩,
    (empty_payload_reads_zero INCR_CHUNK_SIZE sample_env "UTF8_STRING" 0 1 3 [] 1 1 7 true
      (by decide) (by decide)).1⟩

/-! ## Lemmas on the set-up and on the calls of the loop -/

theorem open_display_calls (env : XEnv) (k i : Nat) :
    ∀ c ∈ (open_display env k i).2, c = Call.XOpenDisplay := by
  induction k generalizing i with
  | zero => intro c hc; simp [open_display] at hc
  | succ k ih =>
    intro c hc
    simp only [open_display] at hc
    split at hc
    · rcases List.mem_cons.mp hc with h | h
      · exact h
      · exact ih (i + 1) c h
    · simpa using hc

theorem open_display_zero (env : XEnv) (k i : Nat) (h : (open_display env k i).1 = 0) :
    ∀ j, i ≤ j → j < i + k → env.XOpenDisplay j = 0 := by
  induction k generalizing i with
  | zero => intro j h1 h2; omega
  | succ k ih =>
    intro j h1 h2
    simp only [open_display] at h
    split at h
    · rename_i hd
      rcases Nat.eq_or_lt_of_le h1 with h3 | h3
      · rw [← h3]; exact hd
      · exact ih (i + 1) h j h3 (by omega)
    · rename_i hd; exact absurd h hd

theorem status_calls_open_display (env : XEnv) (k i : Nat) :
    status_calls (open_display env k i).2 = [] := by
  unfold status_calls
  rw [List.filterMap_eq_nil_iff]
  intro c hc
  rw [open_display_calls env k i c hc]

theorem awaits_event_open_display (env : XEnv) (k i : Nat) :
    awaits_event (open_display env k i).2 = false := by
  unfold awaits_event
  rw [List.any_eq_false]
  intro c hc
  rw [open_display_calls env k i c hc]
  simp [is_next_event]

theorem contacts_peer_open_display (env : XEnv) (k i : Nat) :
    ∀ c ∈ (open_display env k i).2, contacts_peer c = false := by
  intro c hc
  rw [open_display_calls env k i c hc]
  rfl

theorem status_calls_append (xs ys : List Call) :
    status_calls (xs ++ ys) = status_calls xs ++ status_calls ys := by
  simp [status_calls]

theorem awaits_event_append (xs ys : List Call) :
    awaits_event (xs ++ ys) = (awaits_event xs || awaits_event ys) := by
  simp [awaits_event]

theorem status_calls_send (chunk st : Nat) (reg : Registry) :
    status_calls (send_incr_chunk chunk st reg).1 = [] := by
  unfold send_incr_chunk
  split
  · rfl
  · split <;> rfl

theorem status_calls_event (chunk : Nat) (o : Owner) (reg : Registry) (event : XEvent)
    (R : Int) : status_calls (owner_event chunk o reg event R).calls = [] := by
  cases event with
  | SelectionClear => rfl
  | PropertyNotify window atom state =>
    simp only [owner_event]
    split
    · split
      · exact status_calls_send _ _ _
      · rfl
    · rfl
  | SelectionNotify sev => rfl
  | SelectionRequest xsr =>
    simp only [owner_event, selection_request]
    split
    · rfl
    · split
      · split <;> split <;> rfl
      · split <;> split <;> rfl
  | Other t => rfl

theorem status_calls_loop (chunk : Nat) (o : Owner) (events : List (XEvent × Int)) :
    ∀ (notified : Int) (reg : Registry),
      status_calls (owner_loop chunk o notified reg events).calls =
        if notified = 0 then [1] else [] := by
  induction events with
  | nil =>
    intro notified reg
    simp only [owner_loop]
    split <;> simp [status_calls]
  | cons e rest ih =>
    intro notified reg
    obtain ⟨event, R⟩ := e
    have hpre : status_calls ((if notified = 0 then [Call.syncStatus o.handle 1] else []) ++
        [Call.XNextEvent o.d]) = if notified = 0 then [1] else [] := by
      split <;> simp [status_calls]
    simp only [owner_loop]
    split
    · rw [status_calls_append, hpre, status_calls_event, List.append_nil]
    · rw [status_calls_append, status_calls_append, hpre, status_calls_event, ih 1]
      simp

theorem owner_loop_calls_head (chunk : Nat) (o : Owner) (reg : Registry)
    (events : List (XEvent × Int)) :
    ∃ tail, (owner_loop chunk o 0 reg events).calls =
      Call.syncStatus o.handle 1 :: Call.XNextEvent o.d :: tail := by
  cases events with
  | nil => exact ⟨[], by simp [owner_loop]⟩
  | cons e rest =>
    obtain ⟨event, R⟩ := e
    simp only [owner_loop]
    split
    · exact ⟨(owner_event chunk o reg event R).calls, by simp⟩
    · exact ⟨(owner_event chunk o reg event R).calls ++
        (owner_loop chunk o 1 (owner_event chunk o reg event R).reg rest).calls, by simp⟩

theorem clipboard_write_no_library (chunk : Nat) (env : XEnv) (reg : Registry)
    (typ : String) (buf : List Nat) (handle : Nat) (events : List (XEvent × Int))
    (hinit : initX11 env = false) :
    clipboard_write chunk env reg typ buf handle events =
      { reg := reg, calls := [], ret := some (-1) } := by
  simp [clipboard_write, hinit]

theorem clipboard_write_no_display (chunk : Nat) (env : XEnv) (reg : Registry)
    (typ : String) (buf : List Nat) (handle : Nat) (events : List (XEvent × Int))
    (hinit : initX11 env = true) (hd : (open_display env 42 0).1 = 0) :
    clipboard_write chunk env reg typ buf handle events =
      { reg := reg, calls := (open_display env 42 0).2 ++ [Call.syncStatus handle (-1)],
        ret := some (-1) } := by
  simp [clipboard_write, hinit, hd]

theorem clipboard_write_no_atom (chunk : Nat) (env : XEnv) (reg : Registry)
    (typ : String) (buf : List Nat) (handle : Nat) (events : List (XEvent × Int))
    (hinit : initX11 env = true) (hd : (open_display env 42 0).1 ≠ 0)
    (ht : env.XInternAtom typ true = None) :
    clipboard_write chunk env reg typ buf handle events =
      { reg := reg,
        calls := (open_display env 42 0).2 ++ write_setup env typ (open_display env 42 0).1 ++
          [Call.XCloseDisplay (open_display env 42 0).1, Call.syncStatus handle (-2)],
        ret := some (-2) } := by
  simp [clipboard_write, hinit, hd, ht]

theorem clipboard_write_denied (chunk : Nat) (env : XEnv) (reg : Registry)
    (typ : String) (buf : List Nat) (handle : Nat) (events : List (XEvent × Int))
    (hinit : initX11 env = true) (hd : (open_display env 42 0).1 ≠ 0)
    (ht : env.XInternAtom typ true ≠ None)
    (hown : env.XGetSelectionOwner (env.XInternAtom "CLIPBOARD" false) ≠
      env.XCreateSimpleWindow (open_display env 42 0).1
        (env.XDefaultRootWindow (open_display env 42 0).1)) :
    clipboard_write chunk env reg typ buf handle events =
      { reg := reg,
        calls := (open_display env 42 0).2 ++ write_setup env typ (open_display env 42 0).1 ++
          [Call.XSetSelectionOwner (open_display env 42 0).1
             (env.XInternAtom "CLIPBOARD" false)
             (env.XCreateSimpleWindow (open_display env 42 0).1
               (env.XDefaultRootWindow (open_display env 42 0).1)) CurrentTime,
           Call.XGetSelectionOwner (open_display env 42 0).1
             (env.XInternAtom "CLIPBOARD" false)] ++
          [Call.XCloseDisplay (open_display env 42 0).1, Call.syncStatus handle (-3)],
        ret := some (-3) } := by
  simp [clipboard_write, hinit, hd, ht, hown]

theorem clipboard_write_loop (chunk : Nat) (env : XEnv) (reg : Registry)
    (typ : String) (buf : List Nat) (handle : Nat) (events : List (XEvent × Int))
    (hinit : initX11 env = true) (hd : (open_display env 42 0).1 ≠ 0)
    (ht : env.XInternAtom typ true ≠ None)
    (hown : env.XGetSelectionOwner (env.XInternAtom "CLIPBOARD" false) =
      env.XCreateSimpleWindow (open_display env 42 0).1
        (env.XDefaultRootWindow (open_display env 42 0).1)) :
    clipboard_write chunk env reg typ buf handle events =
      { reg := (owner_loop chunk
          (owner_locals env typ buf handle (open_display env 42 0).1
            (env.XCreateSimpleWindow (open_display env 42 0).1
              (env.XDefaultRootWindow (open_display env 42 0).1))) 0 reg events).reg,
        calls := (open_display env 42 0).2 ++ write_setup env typ (open_display env 42 0).1 ++
          [Call.XSetSelectionOwner (open_display env 42 0).1
             (env.XInternAtom "CLIPBOARD" false)
             (env.XCreateSimpleWindow (open_display env 42 0).1
               (env.XDefaultRootWindow (open_display env 42 0).1)) CurrentTime,
           Call.XGetSelectionOwner (open_display env 42 0).1
             (env.XInternAtom "CLIPBOARD" false)] ++
          (owner_loop chunk
            (owner_locals env typ buf handle (open_display env 42 0).1
              (env.XCreateSimpleWindow (open_display env 42 0).1
                (env.XDefaultRootWindow (open_display env 42 0).1))) 0 reg events).calls,
        ret := (owner_loop chunk
          (owner_locals env typ buf handle (open_display env 42 0).1
            (env.XCreateSimpleWindow (open_display env 42 0).1
              (env.XDefaultRootWindow (open_display env 42 0).1))) 0 reg events).ret } := by
  simp [clipboard_write, hinit, hd, ht, hown]

theorem status_calls_write_setup (env : XEnv) (typ : String) (d : Display) :
    status_calls (write_setup env typ d) = [] := rfl

theorem awaits_event_write_setup (env : XEnv) (typ : String) (d : Display) :
    awaits_event (write_setup env typ d) = false := rfl

/-! ## C3: the status notifier -/

/-- C3 as stated fails when libX11 cannot be loaded: the call returns -1 without entering
the event loop and without invoking `syncStatus` at all. -/
theorem notifier_silent_without_library :
    initX11 { sample_env with dlopen := false } = false ∧
    awaits_event (clipboard_write INCR_CHUNK_SIZE { sample_env with dlopen := false } []
      "UTF8_STRING" [104, 105] 0 [(XEvent.SelectionClear, 0)]).calls = false ∧
    status_calls (clipboard_write INCR_CHUNK_SIZE { sample_env with dlopen := false } []
      "UTF8_STRING" [104, 105] 0 [(XEvent.SelectionClear, 0)]).calls = [] ∧
    (clipboard_write INCR_CHUNK_SIZE { sample_env with dlopen := false } []
      "UTF8_STRING" [104, 105] 0 [(XEvent.SelectionClear, 0)]).ret = some (-1) := by
  decide

/-- C3, amended. In every run of `clipboard_write`, `syncStatus` is invoked at most once.
In every run in which `initX11` succeeds it is invoked exactly once: with 1 exactly when
the event loop is entered, and then before the first `XNextEvent`; otherwise with -1 when
all 42 calls of `XOpenDisplay` failed, with -2 when the caller's type has no atom, or
with -3 when the selection owner read back is not the own window, and the call returns
that same code without entering the loop. -/
theorem notifier_contract (chunk : Nat) (env : XEnv) (reg : Registry) (typ : String)
    (buf : List Nat) (handle : Nat) (events : List (XEvent × Int)) :
    (status_calls (clipboard_write chunk env reg typ buf handle events).calls).length ≤ 1 ∧
    (initX11 env = true →
      (awaits_event (clipboard_write chunk env reg typ buf handle events).calls = true ↔
        status_calls (clipboard_write chunk env reg typ buf handle events).calls = [1]) ∧
      (awaits_event (clipboard_write chunk env reg typ buf handle events).calls = true →
        status_calls ((clipboard_write chunk env reg typ buf handle events).calls.takeWhile
          fun c => !is_next_event c) = [1]) ∧
      (awaits_event (clipboard_write chunk env reg typ buf handle events).calls = false →
        ((clipboard_write chunk env reg typ buf handle events).ret = some (-1) ∧
          status_calls (clipboard_write chunk env reg typ buf handle events).calls = [-1] ∧
          ∀ i, i < 42 → env.XOpenDisplay i = 0) ∨
        ((clipboard_write chunk env reg typ buf handle events).ret = some (-2) ∧
          status_calls (clipboard_write chunk env reg typ buf handle events).calls = [-2] ∧
          env.XInternAtom typ true = None) ∨
        ((clipboard_write chunk env reg typ buf handle events).ret = some (-3) ∧
          status_calls (clipboard_write chunk env reg typ buf handle events).calls = [-3] ∧
          env.XGetSelectionOwner (env.XInternAtom "CLIPBOARD" false) ≠
            env.XCreateSimpleWindow (open_display env 42 0).1
              (env.XDefaultRootWindow (open_display env 42 0).1)))) := by
  have hso := status_calls_open_display env 42 0
  have hao := awaits_event_open_display env 42 0
  have hsw := status_calls_write_setup env typ (open_display env 42 0).1
  have haw := awaits_event_write_setup env typ (open_display env 42 0).1
  by_cases hinit : initX11 env = true
  swap
  · rw [clipboard_write_no_library chunk env reg typ buf handle events (by simpa using hinit)]
    exact ⟨by simp [status_calls], fun h => absurd h hinit⟩
  by_cases hd : (open_display env 42 0).1 = 0
  · have hall : ∀ i, i < 42 → env.XOpenDisplay i = 0 := fun i hi =>
      open_display_zero env 42 0 hd i (Nat.zero_le _) (by omega)
    rw [clipboard_write_no_display chunk env reg typ buf handle events hinit hd]
    simp only [status_calls_append, awaits_event_append, hso, hao, List.nil_append]
    have h1 : status_calls [Call.syncStatus handle (-1)] = [-1] := rfl
    have h2 : awaits_event [Call.syncStatus handle (-1)] = false := rfl
    rw [h1, h2]
    simp only [hinit, true_implies]
    simp
    exact hall
  by_cases ht : env.XInternAtom typ true = None
  · rw [clipboard_write_no_atom chunk env reg typ buf handle events hinit hd ht]
    simp only [status_calls_append, awaits_event_append, hso, hao, hsw, haw, List.nil_append]
    have h1 : status_calls [Call.XCloseDisplay (open_display env 42 0).1,
        Call.syncStatus handle (-2)] = [-2] := rfl
    have h2 : awaits_event [Call.XCloseDisplay (open_display env 42 0).1,
        Call.syncStatus handle (-2)] = false := rfl
    rw [h1, h2]
    simp [ht]
  by_cases hown : env.XGetSelectionOwner (env.XInternAtom "CLIPBOARD" false) =
      env.XCreateSimpleWindow (open_display env 42 0).1
        (env.XDefaultRootWindow (open_display env 42 0).1)
  · obtain ⟨tail, htail⟩ := owner_loop_calls_head chunk
      (owner_locals env typ buf handle (open_display env 42 0).1
        (env.XCreateSimpleWindow (open_display env 42 0).1
          (env.XDefaultRootWindow (open_display env 42 0).1))) reg events
    have hloop := status_calls_loop chunk
      (owner_locals env typ buf handle (open_display env 42 0).1
        (env.XCreateSimpleWindow (open_display env 42 0).1
          (env.XDefaultRootWindow (open_display env 42 0).1))) events 0 reg
    simp only [if_true] at hloop
    rw [clipboard_write_loop chunk env reg typ buf handle events hinit hd ht hown]
    simp only [status_calls_append, awaits_event_append, hso, hao, hsw, haw, hloop,
      List.nil_append]
    have h1 : ∀ s w, status_calls [Call.XSetSelectionOwner (open_display env 42 0).1 s w
        CurrentTime, Call.XGetSelectionOwner (open_display env 42 0).1 s] = [] :=
      fun _ _ => rfl
    have hnext : awaits_event (owner_loop chunk
        (owner_locals env typ buf handle (open_display env 42 0).1
          (env.XCreateSimpleWindow (open_display env 42 0).1
            (env.XDefaultRootWindow (open_display env 42 0).1))) 0 reg events).calls = true := by
      rw [htail]; rfl
    rw [h1, hnext]
    refine ⟨by decide, fun _ => ⟨by simp, fun _ => ?_, by simp⟩⟩
    have hpre : ∀ a ∈ (open_display env 42 0).2 ++
        write_setup env typ (open_display env 42 0).1 ++
        [Call.XSetSelectionOwner (open_display env 42 0).1
           (env.XInternAtom "CLIPBOARD" false)
           (env.XCreateSimpleWindow (open_display env 42 0).1
             (env.XDefaultRootWindow (open_display env 42 0).1)) CurrentTime,
         Call.XGetSelectionOwner (open_display env 42 0).1
           (env.XInternAtom "CLIPBOARD" false)], (!is_next_event a) = true := by
      intro a ha
      simp only [List.mem_append] at ha
      rcases ha with (ha | ha) | ha
      · rw [open_display_calls env 42 0 a ha]; rfl
      · simp only [write_setup, List.mem_cons, List.mem_singleton, List.not_mem_nil,
          or_false] at ha
        rcases ha with h | h | h | h | h | h | h | h | h <;> subst h <;> rfl
      · simp only [List.mem_cons, List.mem_singleton, List.not_mem_nil, or_false] at ha
        rcases ha with h | h <;> subst h <;> rfl
    rw [List.takeWhile_append_of_pos hpre, htail, status_calls_append]
    simp only [status_calls_append, hso, hsw, h1, List.nil_append]
    rfl
  · rw [clipboard_write_denied chunk env reg typ buf handle events hinit hd ht hown]
    simp only [status_calls_append, awaits_event_append, hso, hao, hsw, haw, List.nil_append]
    have h1 : ∀ s w, status_calls [Call.XSetSelectionOwner (open_display env 42 0).1 s w
        CurrentTime, Call.XGetSelectionOwner (open_display env 42 0).1 s] = [] :=
      fun _ _ => rfl
    have h2 : ∀ s w, awaits_event [Call.XSetSelectionOwner (open_display env 42 0).1 s w
        CurrentTime, Call.XGetSelectionOwner (open_display env 42 0).1 s] = false :=
      fun _ _ => rfl
    have h3 : status_calls [Call.XCloseDisplay (open_display env 42 0).1,
        Call.syncStatus handle (-3)] = [-3] := rfl
    have h4 : awaits_event [Call.XCloseDisplay (open_display env 42 0).1,
        Call.syncStatus handle (-3)] = false := rfl
    rw [h1, h2, h3, h4]
    simp [hown]

/-- C3, amended, at a run that enters the loop and one where the type has no atom. -/
theorem notifier_contract_witness :
    initX11 sample_env = true ∧
    status_calls (clipboard_write INCR_CHUNK_SIZE sample_env [] "UTF8_STRING" [104, 105] 0
      [(XEvent.SelectionClear, 0)]).calls = [1] ∧
    status_calls (clipboard_write INCR_CHUNK_SIZE sample_env [] "no-such-type" [104, 105] 0
      [(XEvent.SelectionClear, 0)]).calls = [-2] :=
  ⟨by decide,
    (((notifier_contract INCR_CHUNK_SIZE sample_env [] "UTF8_STRING" [104, 105] 0
      [(XEvent.SelectionClear, 0)]).2 (by decide)).1).mp (by decide),
    by decide⟩

/-! ## C4: a content type without an atom -/

/-- C4. When the library is loaded, a display is opened within the 42 attempts and the
strict `XInternAtom` of the caller's type returns `None`: `clipboard_write` makes its
set-up calls, closes the display, reports -2 to `syncStatus` and returns -2, leaving the
registry as it was; `clipboard_read` makes its set-up calls, closes the display and returns
`(unsigned long) -2`, setting no buffer. Neither makes a call that contacts a peer:
no `XSetSelectionOwner`, `XConvertSelection`, `XSendEvent` or `XChangeProperty`. -/
theorem invalid_type_rejected (chunk : Nat) (env : XEnv) (reg : Registry) (typ : String)
    (buf : List Nat) (handle : Nat) (events : List (XEvent × Int)) (bufp : Bool)
    (revents : List (XEvent × GetPropResult)) (hinit : initX11 env = true)
    (hopen : ∃ i, i < 42 ∧ env.XOpenDisplay i ≠ 0)
    (hnone : env.XInternAtom typ true = None) :
    clipboard_write chunk env reg typ buf handle events =
      { reg := reg,
        calls := (open_display env 42 0).2 ++ write_setup env typ (open_display env 42 0).1 ++
          [Call.XCloseDisplay (open_display env 42 0).1, Call.syncStatus handle (-2)],
        ret := some (-2) } ∧
    (∀ c ∈ (clipboard_write chunk env reg typ buf handle events).calls,
      contacts_peer c = false) ∧
    clipboard_read env typ bufp revents =
      some { ret := WORD - 2, buf := none,
             calls := (open_display env 42 0).2 ++
               read_setup env typ (open_display env 42 0).1 ++
               [Call.XCloseDisplay (open_display env 42 0).1] } ∧
    (∀ r, clipboard_read env typ bufp revents = some r →
      as_long r.ret = -2 ∧ ∀ c ∈ r.calls, contacts_peer c = false) := by
  have hd : (open_display env 42 0).1 ≠ 0 := by
    intro h
    obtain ⟨i, hi, hne⟩ := hopen
    exact hne (open_display_zero env 42 0 h i (Nat.zero_le _) (by omega))
  have hw := clipboard_write_no_atom chunk env reg typ buf handle events hinit hd hnone
  have hr : clipboard_read env typ bufp revents =
      some { ret := WORD - 2, buf := none,
             calls := (open_display env 42 0).2 ++
               read_setup env typ (open_display env 42 0).1 ++
               [Call.XCloseDisplay (open_display env 42 0).1] } := by
    simp [clipboard_read, hinit, hd, hnone]
  refine ⟨hw, ?_, hr, ?_⟩
  · rw [hw]
    intro c hc
    simp only [List.mem_append] at hc
    rcases hc with (hc | hc) | hc
    · exact contacts_peer_open_display env 42 0 c hc
    · simp only [write_setup, List.mem_cons, List.mem_singleton, List.not_mem_nil,
        or_false] at hc
      rcases hc with h | h | h | h | h | h | h | h | h <;> subst h <;> rfl
    · simp only [List.mem_cons, List.mem_singleton, List.not_mem_nil, or_false] at hc
      rcases hc with h | h <;> subst h <;> rfl
  · intro r hrr
    rw [hr] at hrr
    cases hrr
    have hlong : as_long (WORD - 2) = -2 := by decide
    refine ⟨hlong, ?_⟩
    intro c hc
    simp only [List.mem_append] at hc
    rcases hc with (hc | hc) | hc
    · exact contacts_peer_open_display env 42 0 c hc
    · simp only [read_setup, List.mem_cons, List.mem_singleton, List.not_mem_nil,
        or_false] at hc
      rcases hc with h | h | h | h | h <;> subst h <;> rfl
    · simp only [List.mem_cons, List.mem_singleton, List.not_mem_nil, or_false] at hc
      subst hc; rfl

/-- C4 at a type name the server has no atom for; the third attempt opens the display. -/
theorem invalid_type_rejected_witness :
    (initX11 sample_env = true ∧ (∃ i, i < 42 ∧ sample_env.XOpenDisplay i ≠ 0) ∧
      sample_env.XInternAtom "not-a-real-type" true = None) ∧
    (clipboard_write INCR_CHUNK_SIZE sample_env [] "not-a-real-type" [104, 105] 0
      [(XEvent.SelectionRequest (request_from 7), 1)]).ret = some (-2) ∧
    (clipboard_read sample_env "not-a-real-type" true []).map (fun r => as_long r.ret) =
      some (-2) :=
  ⟨⟨by decide, ⟨2, by decide, by decide⟩, by decide⟩,
    by
      rw [(invalid_type_rejected INCR_CHUNK_SIZE sample_env [] "not-a-real-type" [104, 105] 0
        [(XEvent.SelectionRequest (request_from 7), 1)] true [] (by decide)
        ⟨2, by decide, by decide⟩ (by decide)).1],
    by decide⟩

/-! ## C18: swap-remove -/

/-- C18. For a registry of `c ≥ 1` entries and an index `i < c`, `remove_incr_state` on
the entry `i` leaves `c - 1` entries that are, up to order, the original ones without the
entry `i`: when `i` is not the last index the slot `i` holds the former last entry, and
every other remaining slot holds what it held. Removing `NULL` changes nothing. -/
theorem swap_remove (reg : Registry) (i : Nat) (h : i < reg.length) :
    (remove_incr_state (some i) reg).length = reg.length - 1 ∧
    incr_count (remove_incr_state (some i) reg) = incr_count reg - 1 ∧
    (remove_incr_state (some i) reg).Perm (reg.eraseIdx i) ∧
    (i < reg.length - 1 → (remove_incr_state (some i) reg)[i]? = reg[reg.length - 1]?) ∧
    (∀ j, j ≠ i → j < reg.length - 1 → (remove_incr_state (some i) reg)[j]? = reg[j]?) ∧
    remove_incr_state none reg = reg := by
  have hlen := remove_incr_state_length i reg
  refine ⟨hlen, ?_, remove_incr_state_perm reg i h, ?_, ?_, rfl⟩
  · simp only [incr_count, hlen]; omega
  · rcases List.eq_nil_or_concat reg with hnil | ⟨init, last, hreg⟩
    · subst hnil; simp at h
    · subst hreg
      rw [List.concat_eq_append]
      intro hi
      have hi' : i < init.length := by simpa using hi
      rw [remove_incr_state_concat, if_pos hi']
      simp [hi']
  · rcases List.eq_nil_or_concat reg with hnil | ⟨init, last, hreg⟩
    · subst hnil; simp at h
    · subst hreg
      rw [List.concat_eq_append]
      intro j hji hj
      have hj' : j < init.length := by simpa using hj
      rw [remove_incr_state_concat, List.getElem?_append_left hj']
      split
      · rw [List.getElem?_set_ne (Ne.symm hji)]
      · rfl

/-- C18 at a registry of three transfers, removing the first. -/
theorem swap_remove_witness :
    (0 < [transfer 1 7 9 5 [1] 0, transfer 1 8 9 5 [2] 0, transfer 1 6 9 5 [3] 0].length) ∧
    remove_incr_state (some 0)
        [transfer 1 7 9 5 [1] 0, transfer 1 8 9 5 [2] 0, transfer 1 6 9 5 [3] 0] =
      [transfer 1 6 9 5 [3] 0, transfer 1 8 9 5 [2] 0] ∧
    (remove_incr_state (some 0)
        [transfer 1 7 9 5 [1] 0, transfer 1 8 9 5 [2] 0, transfer 1 6 9 5 [3] 0]).Perm
      ([transfer 1 7 9 5 [1] 0, transfer 1 8 9 5 [2] 0, transfer 1 6 9 5 [3] 0].eraseIdx 0) :=
  ⟨by decide, by decide,
    (swap_remove [transfer 1 7 9 5 [1] 0, transfer 1 8 9 5 [2] 0, transfer 1 6 9 5 [3] 0] 0
      (by decide)).2.2.1⟩

/-! ## C16: notifications that match no transfer -/

/-- C16. A `PropertyNotify` whose state is not `PropertyDelete`, or whose window and atom
are the key of no state in the registry, makes the event loop call nothing (no property
write, no event sent) and leaves the registry exactly as it is; the loop goes on. -/
theorem unmatched_notification_ignored (chunk : Nat) (o : Owner) (reg : Registry)
    (window : Window) (atom : Atom) (state : Int) (R : Int)
    (h : state ≠ PropertyDelete ∨ find_incr_state reg window atom = none) :
    owner_event chunk o reg (XEvent.PropertyNotify window atom state) R =
      { reg := reg, calls := [], ret := none } ∧
    property_writes (owner_event chunk o reg (XEvent.PropertyNotify window atom state) R).calls
      = [] ∧
    events_sent (owner_event chunk o reg (XEvent.PropertyNotify window atom state) R).calls
      = [] ∧
    incr_count (owner_event chunk o reg (XEvent.PropertyNotify window atom state) R).reg =
      incr_count reg ∧
    (owner_event chunk o reg (XEvent.PropertyNotify window atom state) R).reg.map
      (fun s => s.offset) = reg.map (fun s => s.offset) := by
  have hev : owner_event chunk o reg (XEvent.PropertyNotify window atom state) R =
      { reg := reg, calls := [], ret := none } := by
    rcases h with h | h
    · simp [owner_event, h]
    · simp [owner_event, h]
  rw [hev]
  exact ⟨rfl, rfl, rfl, rfl, rfl⟩

/-- C16 at a `PropertyNewValue` notification for a key that has a state, and at a
`PropertyDelete` notification for a key that has none. -/
theorem unmatched_notification_ignored_witness :
    (PropertyNewValue ≠ PropertyDelete ∨
      find_incr_state [transfer 1 7 9 5 [1, 2, 3] 1] 7 9 = none) ∧
    (PropertyDelete ≠ PropertyDelete ∨
      find_incr_state [transfer 1 7 9 5 [1, 2, 3] 1] 8 9 = none) ∧
    owner_event INCR_CHUNK_SIZE large_owner [transfer 1 7 9 5 [1, 2, 3] 1]
        (XEvent.PropertyNotify 7 9 PropertyNewValue) 0 =
      { reg := [transfer 1 7 9 5 [1, 2, 3] 1], calls := [], ret := none } ∧
    owner_event INCR_CHUNK_SIZE large_owner [transfer 1 7 9 5 [1, 2, 3] 1]
        (XEvent.PropertyNotify 8 9 PropertyDelete) 0 =
      { reg := [transfer 1 7 9 5 [1, 2, 3] 1], calls := [], ret := none } :=
  ⟨Or.inl (by decide), Or.inr (by decide),
    (unmatched_notification_ignored INCR_CHUNK_SIZE large_owner _ 7 9 PropertyNewValue 0
      (Or.inl (by decide))).1,
    (unmatched_notification_ignored INCR_CHUNK_SIZE large_owner _ 8 9 PropertyDelete 0
      (Or.inr (by decide))).1⟩

/-! ## C11 and C15: the answer to a selection request -/

/-- The result of `case SelectionRequest:` in each of its four branches. -/
theorem selection_request_cases (chunk : Nat) (o : Owner) (reg : Registry)
    (xsr : XSelectionRequestEvent) (R : Int) (hsel : xsr.selection = o.sel) :
    owner_event chunk o reg (XEvent.SelectionRequest xsr) R =
      if (xsr.target = o.atomString ∨ xsr.target = o.atomImage) ∧ xsr.target = o.target then
        if o.n > INCR_THRESHOLD then
          { reg := add_incr_state reg xsr.display xsr.requestor xsr.property xsr.target
              o.buf o.n,
            calls :=
              [Call.XChangeProperty
                 { display := xsr.display, w := xsr.requestor, property := xsr.property,
                   type := o.incrAtom, format := 32, mode := PropModeReplace,
                   data := [o.n], nelements := 1 },
               Call.XSelectInput xsr.display xsr.requestor PropertyChangeMask] ++
              (if bit2_clear R then [Call.XSendEvent o.d xsr.requestor (mirror xsr)] else []),
            ret := none }
        else
          { reg := reg,
            calls :=
              [Call.XChangeProperty
                 { display := xsr.display, w := xsr.requestor, property := xsr.property,
                   type := xsr.target, format := 8, mode := PropModeReplace,
                   data := o.buf.take o.n, nelements := o.n }] ++
              (if bit2_clear R then [Call.XSendEvent o.d xsr.requestor (mirror xsr)] else []),
            ret := none }
      else if xsr.target = o.targetsAtom then
        { reg := reg,
          calls :=
            [Call.XChangeProperty
               { display := xsr.display, w := xsr.requestor, property := xsr.property,
                 type := XA_ATOM, format := 32, mode := PropModeReplace,
                 data := [o.atomString, o.atomImage], nelements := 2 }] ++
            (if bit2_clear R then [Call.XSendEvent o.d xsr.requestor (mirror xsr)] else []),
          ret := none }
      else
        { reg := reg,
          calls := [Call.XSendEvent o.d xsr.requestor { mirror xsr with property := None }],
          ret := none } := by
  simp only [owner_event, selection_request, hsel, ne_eq, not_true_eq_false, if_false,
    mirror, bit2_clear_zero, if_true]

/-- C11. For a `SelectionRequest` on the clipboard selection, with `n` the length of the
payload `buf`: when the target is the caller's type and is UTF8_STRING or image/png, the
only property write is, for a payload of at most `INCR_THRESHOLD` bytes, the whole payload
as a format 8 property of that type on the requested property, the registry staying as
it is; and for a longer payload, one format 32 property of type INCR whose one item is
the payload length, the registry getting exactly one new entry, with offset 0, the
payload length as `total_size`, a copy of the payload, and the request's requestor,
property and target. When the target is neither that nor TARGETS, no property is written,
the registry stays as it is and the reply carries the property `None`. -/
theorem selection_request_dispatch (chunk : Nat) (o : Owner) (reg : Registry)
    (xsr : XSelectionRequestEvent) (R : Int) (hsel : xsr.selection = o.sel)
    (hn : o.n = o.buf.length) :
    ((xsr.target = o.atomString ∨ xsr.target = o.atomImage) ∧ xsr.target = o.target →
      (o.buf.length ≤ INCR_THRESHOLD →
        property_writes (owner_event chunk o reg (XEvent.SelectionRequest xsr) R).calls =
          [{ display := xsr.display, w := xsr.requestor, property := xsr.property,
             type := xsr.target, format := 8, mode := PropModeReplace,
             data := o.buf, nelements := o.buf.length }] ∧
        (owner_event chunk o reg (XEvent.SelectionRequest xsr) R).reg = reg) ∧
      (INCR_THRESHOLD < o.buf.length →
        property_writes (owner_event chunk o reg (XEvent.SelectionRequest xsr) R).calls =
          [{ display := xsr.display, w := xsr.requestor, property := xsr.property,
             type := o.incrAtom, format := 32, mode := PropModeReplace,
             data := [o.buf.length], nelements := 1 }] ∧
        (owner_event chunk o reg (XEvent.SelectionRequest xsr) R).reg =
          reg ++ [{ data := o.buf, total_size := o.buf.length, offset := 0,
                    display := xsr.display, requestor := xsr.requestor,
                    property := xsr.property, target := xsr.target }])) ∧
    (declined o xsr →
      property_writes (owner_event chunk o reg (XEvent.SelectionRequest xsr) R).calls = [] ∧
      (owner_event chunk o reg (XEvent.SelectionRequest xsr) R).reg = reg ∧
      events_sent (owner_event chunk o reg (XEvent.SelectionRequest xsr) R).calls =
        [(xsr.requestor, { mirror xsr with property := None })]) := by
  rw [selection_request_cases chunk o reg xsr R hsel]
  refine ⟨fun h1 => ⟨fun hs => ?_, fun hl => ?_⟩, fun hd => ?_⟩
  · have hn2 : ¬ o.n > INCR_THRESHOLD := by omega
    rw [if_pos h1, if_neg hn2, hn, List.take_length]
    cases bit2_clear R <;> exact ⟨rfl, rfl⟩
  · have hn2 : o.n > INCR_THRESHOLD := by omega
    rw [if_pos h1, if_pos hn2, hn]
    cases bit2_clear R <;> simp [property_writes, add_incr_state]
  · rw [if_neg hd.1, if_neg hd.2]
    exact ⟨rfl, rfl, rfl⟩

/-- C11 at a request for the caller's type with a payload of 262145 bytes. -/
theorem selection_request_dispatch_witness :
    ((request_from 7).selection = large_owner.sel ∧
      large_owner.n = large_owner.buf.length) ∧
    (owner_event INCR_CHUNK_SIZE large_owner [] (XEvent.SelectionRequest (request_from 7))
        1).reg =
      [{ data := large_owner.buf, total_size := large_owner.buf.length, offset := 0,
         display := 1, requestor := 7, property := 9, target := 5 }] :=
  ⟨⟨by decide, (List.length_replicate _ _).symm⟩,
    ((selection_request_dispatch INCR_CHUNK_SIZE large_owner [] (request_from 7) 1
      (by decide) (List.length_replicate _ _).symm).1 (by decide)).2
      (by rw [large_owner, List.length_replicate]; decide) |>.2⟩

/-- C15. For every `SelectionRequest` on the clipboard selection the owner makes at most
one property write; it makes none exactly when it declines the request. After a write
that returned `R` it sends one `SelectionNotify` that mirrors the request's requestor,
selection, target, time and property to the requestor when bit 2 of `R` is clear, and
sends nothing when it is set. For a declined request `R` stays 0: the reply is sent,
whatever the environment would return, and carries the property `None`. -/
theorem reply_exactly_once (chunk : Nat) (o : Owner) (reg : Registry)
    (xsr : XSelectionRequestEvent) (R : Int) (hsel : xsr.selection = o.sel) :
    (property_writes (owner_event chunk o reg (XEvent.SelectionRequest xsr) R).calls).length
      ≤ 1 ∧
    (property_writes (owner_event chunk o reg (XEvent.SelectionRequest xsr) R).calls = [] ↔
      declined o xsr) ∧
    (¬ declined o xsr →
      events_sent (owner_event chunk o reg (XEvent.SelectionRequest xsr) R).calls =
        if bit2_clear R then [(xsr.requestor, mirror xsr)] else []) ∧
    (declined o xsr →
      events_sent (owner_event chunk o reg (XEvent.SelectionRequest xsr) R).calls =
        [(xsr.requestor, { mirror xsr with property := None })]) ∧
    (mirror xsr).requestor = xsr.requestor ∧ (mirror xsr).selection = xsr.selection ∧
    (mirror xsr).target = xsr.target ∧ (mirror xsr).time = xsr.time ∧
    (mirror xsr).property = xsr.property ∧ (mirror xsr).type = SelectionNotify := by
  rw [selection_request_cases chunk o reg xsr R hsel]
  refine ⟨?_, ?_, ?_, ?_, rfl, rfl, rfl, rfl, rfl, rfl⟩
  · split
    · split <;> cases bit2_clear R <;> simp [property_writes]
    · split
      · cases bit2_clear R <;> simp [property_writes]
      · simp [property_writes]
  · by_cases h1 : (xsr.target = o.atomString ∨ xsr.target = o.atomImage) ∧
        xsr.target = o.target
    · rw [if_pos h1]
      refine ⟨fun h => ?_, fun h => absurd h1 h.1⟩
      split at h <;> cases hb : bit2_clear R <;> simp [property_writes, hb] at h
    · rw [if_neg h1]
      by_cases h2 : xsr.target = o.targetsAtom
      · rw [if_pos h2]
        refine ⟨fun h => ?_, fun h => absurd h2 h.2⟩
        cases hb : bit2_clear R <;> simp [property_writes, hb] at h
      · rw [if_neg h2]
        exact ⟨fun _ => ⟨h1, h2⟩, fun _ => rfl⟩
  · intro hnd
    unfold declined at hnd
    by_cases h1 : (xsr.target = o.atomString ∨ xsr.target = o.atomImage) ∧
        xsr.target = o.target
    · rw [if_pos h1]
      split <;> cases bit2_clear R <;> rfl
    · rw [if_neg h1]
      by_cases h2 : xsr.target = o.targetsAtom
      · rw [if_pos h2]
        cases bit2_clear R <;> rfl
      · exact absurd ⟨h1, h2⟩ hnd
  · intro hd
    rw [if_neg hd.1, if_neg hd.2]
    rfl

/-- C15 at a request that is served with the result 1, one served with the result 2,
and one that is declined. -/
theorem reply_exactly_once_witness :
    (request_from 7).selection = large_owner.sel ∧
    events_sent (owner_event INCR_CHUNK_SIZE large_owner []
        (XEvent.SelectionRequest (request_from 7)) 1).calls =
      [(7, mirror (request_from 7))] ∧
    events_sent (owner_event INCR_CHUNK_SIZE large_owner []
        (XEvent.SelectionRequest (request_from 7)) 2).calls = [] ∧
    events_sent (owner_event INCR_CHUNK_SIZE large_owner []
        (XEvent.SelectionRequest { request_from 7 with target := 31 }) 2).calls =
      [(7, { mirror { request_from 7 with target := 31 } with property := None })] :=
  ⟨by decide,
    ((reply_exactly_once INCR_CHUNK_SIZE large_owner [] (request_from 7) 1
      (by decide)).2.2.1 (by decide)).trans (by decide),
    ((reply_exactly_once INCR_CHUNK_SIZE large_owner [] (request_from 7) 2
      (by decide)).2.2.1 (by decide)).trans (by decide),
    (reply_exactly_once INCR_CHUNK_SIZE large_owner [] { request_from 7 with target := 31 } 2
      (by decide)).2.2.2.1 (by decide)⟩

/-! ## C12: the chunks of the producer -/

theorem chunk_size_eq (chunk : Nat) (s : incr_state_t) (hinv : s.offset ≤ s.total_size)
    (hN : s.total_size < WORD) : chunk_size chunk s = min chunk (s.total_size - s.offset) := by
  simp only [chunk_size, WORD] at hN ⊢
  split <;> omega

/-- One `send_incr_chunk` on an entry that satisfies the offset invariant. -/
theorem send_incr_chunk_eq (chunk st : Nat) (reg : Registry) (s : incr_state_t)
    (hget : reg[st]? = some s) (hinv : s.offset ≤ s.total_size) (hN : s.total_size < WORD) :
    send_incr_chunk chunk st reg =
      if 0 < min chunk (s.total_size - s.offset) then
        ([Call.XChangeProperty
            { display := s.display, w := s.requestor, property := s.property,
              type := s.target, format := 8, mode := PropModeReplace,
              data := (s.data.drop s.offset).take (min chunk (s.total_size - s.offset)),
              nelements := min chunk (s.total_size - s.offset) }],
         reg.set st { s with offset := s.offset + min chunk (s.total_size - s.offset) })
      else
        ([Call.XChangeProperty
            { display := s.display, w := s.requestor, property := s.property,
              type := s.target, format := 8, mode := PropModeReplace,
              data := [], nelements := 0 }],
         remove_incr_state (some st) reg) := by
  have hcs := chunk_size_eq chunk s hinv hN
  have hmod : (s.offset + min chunk (s.total_size - s.offset)) % WORD =
      s.offset + min chunk (s.total_size - s.offset) := by
    apply Nat.mod_eq_of_lt
    simp only [WORD] at hN ⊢
    omega
  simp only [send_incr_chunk, hget, hcs, hmod, gt_iff_lt]

/-- The event loop goes on after a property notification. -/
theorem owner_event_notify_ret (chunk : Nat) (o : Owner) (reg : Registry) (w : Window)
    (p : Atom) (state : Int) (R : Int) :
    (owner_event chunk o reg (XEvent.PropertyNotify w p state) R).ret = none := by
  simp only [owner_event]
  split
  · split <;> rfl
  · rfl

/-- One property-delete notification for a key whose look-up finds an entry that
satisfies the offset invariant. -/
theorem owner_event_delete_found (chunk : Nat) (o : Owner) (reg : Registry) (st : Nat)
    (s : incr_state_t) (R : Int) (hget : reg[st]? = some s)
    (hfind : find_incr_state reg s.requestor s.property = some st)
    (hinv : s.offset ≤ s.total_size) (hN : s.total_size < WORD) :
    owner_event chunk o reg (XEvent.PropertyNotify s.requestor s.property PropertyDelete) R =
      if 0 < min chunk (s.total_size - s.offset) then
        { reg := reg.set st { s with offset := s.offset + min chunk (s.total_size - s.offset) },
          calls := [Call.XChangeProperty
            { display := s.display, w := s.requestor, property := s.property,
              type := s.target, format := 8, mode := PropModeReplace,
              data := (s.data.drop s.offset).take (min chunk (s.total_size - s.offset)),
              nelements := min chunk (s.total_size - s.offset) }],
          ret := none }
      else
        { reg := remove_incr_state (some st) reg,
          calls := [Call.XChangeProperty
            { display := s.display, w := s.requestor, property := s.property,
              type := s.target, format := 8, mode := PropModeReplace,
              data := [], nelements := 0 }],
          ret := none } := by
  simp only [owner_event, hfind, if_true, send_incr_chunk_eq chunk st reg s hget hinv hN]
  split <;> rfl

theorem key_states_find (reg : Registry) (w : Window) (p : Atom) (t : incr_state_t)
    (h : key_states reg w p = [t]) :
    ∃ st, find_incr_state reg w p = some st ∧ reg[st]? = some t := by
  induction reg with
  | nil => simp [key_states] at h
  | cons a rest ih =>
    by_cases ha : a.requestor = w ∧ a.property = p
    · simp only [key_states, List.filter_cons, ha, and_self, decide_True, if_true,
        List.cons.injEq] at h
      exact ⟨0, by simp [find_incr_state, ha], by simp [h.1]⟩
    · simp only [key_states, List.filter_cons, ha, decide_False, Bool.false_eq_true,
        if_false] at h
      obtain ⟨st, h1, h2⟩ := ih h
      exact ⟨st + 1, by simp [find_incr_state, ha, h1], by simpa using h2⟩

theorem key_states_mem (reg : Registry) (w : Window) (p : Atom) (t : incr_state_t)
    (h : key_states reg w p = [t]) : t.requestor = w ∧ t.property = p := by
  have hm : t ∈ key_states reg w p := by rw [h]; exact List.mem_singleton_self t
  simp only [key_states, List.mem_filter, decide_eq_true_eq] at hm
  exact hm.2

theorem key_states_set_own (reg : Registry) (w : Window) (p : Atom) (st : Nat)
    (t t' : incr_state_t) (hget : reg[st]? = some t) (h : key_states reg w p = [t])
    (hw : t'.requestor = w) (hp : t'.property = p) :
    key_states (reg.set st t') w p = [t'] := by
  have hk := key_states_mem reg w p t h
  induction reg generalizing st with
  | nil => simp at hget
  | cons a rest ih =>
    cases st with
    | zero =>
      simp only [List.getElem?_cons_zero, Option.some.injEq] at hget
      subst hget
      simp only [key_states, List.filter_cons, hk, and_self, decide_True, if_true,
        List.cons.injEq, true_and] at h
      simp only [key_states, List.set_cons_zero, List.filter_cons, hw, hp, and_self,
        decide_True, if_true, List.cons.injEq, true_and]
      exact h
    | succ j =>
      simp only [List.getElem?_cons_succ] at hget
      have hmem : t ∈ key_states rest w p := by
        simp only [key_states, List.mem_filter, decide_eq_true_eq]
        exact ⟨List.mem_iff_getElem?.mpr ⟨j, hget⟩, hk⟩
      by_cases ha : a.requestor = w ∧ a.property = p
      · simp only [key_states, List.filter_cons, ha, and_self, decide_True, if_true,
          List.cons.injEq] at h
        simp only [key_states] at hmem
        rw [h.2] at hmem
        simp at hmem
      · simp only [key_states, List.filter_cons, ha, decide_False, Bool.false_eq_true,
          if_false] at h
        simp only [key_states, List.set_cons_succ, List.filter_cons, ha, decide_False,
          Bool.false_eq_true, if_false]
        exact ih j hget h

theorem key_states_set_other (reg : Registry) (w : Window) (p : Atom) (st : Nat)
    (u u' : incr_state_t) (hget : reg[st]? = some u)
    (hu : ¬ (u.requestor = w ∧ u.property = p))
    (hu' : ¬ (u'.requestor = w ∧ u'.property = p)) :
    key_states (reg.set st u') w p = key_states reg w p := by
  induction reg generalizing st with
  | nil => rfl
  | cons a rest ih =>
    cases st with
    | zero =>
      simp only [List.getElem?_cons_zero, Option.some.injEq] at hget
      subst hget
      simp [key_states, List.filter_cons, hu, hu']
    | succ j =>
      simp only [List.getElem?_cons_succ] at hget
      have := ih j hget
      simp only [key_states] at this
      simp only [key_states, List.set_cons_succ, List.filter_cons, this]

theorem key_states_eraseIdx_other (reg : Registry) (w : Window) (p : Atom) (st : Nat)
    (u : incr_state_t) (hget : reg[st]? = some u)
    (hu : ¬ (u.requestor = w ∧ u.property = p)) :
    key_states (reg.eraseIdx st) w p = key_states reg w p := by
  induction reg generalizing st with
  | nil => rfl
  | cons a rest ih =>
    cases st with
    | zero =>
      simp only [List.getElem?_cons_zero, Option.some.injEq] at hget
      subst hget
      simp [key_states, List.filter_cons, hu]
    | succ j =>
      simp only [List.getElem?_cons_succ] at hget
      have := ih j hget
      simp only [key_states] at this
      simp only [key_states, List.eraseIdx_cons_succ, List.filter_cons, this]

theorem key_states_eraseIdx_own (reg : Registry) (w : Window) (p : Atom) (st : Nat)
    (t : incr_state_t) (hget : reg[st]? = some t) (h : key_states reg w p = [t]) :
    key_states (reg.eraseIdx st) w p = [] := by
  have hk := key_states_mem reg w p t h
  induction reg generalizing st with
  | nil => rfl
  | cons a rest ih =>
    cases st with
    | zero =>
      simp only [List.getElem?_cons_zero, Option.some.injEq] at hget
      subst hget
      simp only [key_states, List.filter_cons, hk, and_self, decide_True, if_true,
        List.cons.injEq, true_and] at h
      simpa [key_states] using h
    | succ j =>
      simp only [List.getElem?_cons_succ] at hget
      have hmem : t ∈ key_states rest w p := by
        simp only [key_states, List.mem_filter, decide_eq_true_eq]
        exact ⟨List.mem_iff_getElem?.mpr ⟨j, hget⟩, hk⟩
      by_cases ha : a.requestor = w ∧ a.property = p
      · simp only [key_states, List.filter_cons, ha, and_self, decide_True, if_true,
          List.cons.injEq] at h
        simp only [key_states] at hmem
        rw [h.2] at hmem
        simp at hmem
      · simp only [key_states, List.filter_cons, ha, decide_False, Bool.false_eq_true,
          if_false] at h
        have := ih j hget h
        simp only [key_states] at this
        simp only [key_states, List.eraseIdx_cons_succ, List.filter_cons, ha, decide_False,
          Bool.false_eq_true, if_false, this]

theorem key_states_remove_other (reg : Registry) (w : Window) (p : Atom) (st : Nat)
    (u t : incr_state_t) (hget : reg[st]? = some u)
    (hu : ¬ (u.requestor = w ∧ u.property = p)) (h : key_states reg w p = [t]) :
    key_states (remove_incr_state (some st) reg) w p = [t] := by
  have hlt : st < reg.length := (List.getElem?_eq_some.mp hget).1
  have hp := (remove_incr_state_perm reg st hlt).filter
    fun x => decide (x.requestor = w ∧ x.property = p)
  have he := key_states_eraseIdx_other reg w p st u hget hu
  simp only [key_states] at he h ⊢
  rw [he, h] at hp
  exact List.perm_singleton.mp hp

theorem key_states_remove_own (reg : Registry) (w : Window) (p : Atom) (st : Nat)
    (t : incr_state_t) (hget : reg[st]? = some t) (h : key_states reg w p = [t]) :
    key_states (remove_incr_state (some st) reg) w p = [] := by
  have hlt : st < reg.length := (List.getElem?_eq_some.mp hget).1
  have hp := (remove_incr_state_perm reg st hlt).filter
    fun x => decide (x.requestor = w ∧ x.property = p)
  have he := key_states_eraseIdx_own reg w p st t hget h
  simp only [key_states] at he ⊢
  rw [he] at hp
  exact List.perm_nil.mp hp

theorem key_states_nil_find (reg : Registry) (w : Window) (p : Atom)
    (h : key_states reg w p = []) : find_incr_state reg w p = none := by
  rw [find_incr_state_none_iff]
  intro x hx hk
  have : x ∈ key_states reg w p := by
    simp only [key_states, List.mem_filter, decide_eq_true_eq]
    exact ⟨hx, hk⟩
  rw [h] at this
  simp at this

/-- An event other than the key's property-delete notification that leaves the key alone
changes none of the key's states, and the loop goes on. -/
theorem owner_event_leaves_key (chunk : Nat) (o : Owner) (reg : Registry) (w : Window)
    (p : Atom) (t : incr_state_t) (event : XEvent) (R : Int)
    (hleave : leaves_key o w p event = true)
    (hne : event ≠ XEvent.PropertyNotify w p PropertyDelete)
    (h : key_states reg w p = [t]) :
    key_states (owner_event chunk o reg event R).reg w p = [t] ∧
    (owner_event chunk o reg event R).ret = none := by
  cases event with
  | SelectionClear => simp [leaves_key] at hleave
  | SelectionNotify sev => exact ⟨h, rfl⟩
  | Other ty => exact ⟨h, rfl⟩
  | PropertyNotify w' a' state =>
    refine ⟨?_, owner_event_notify_ret _ _ _ _ _ _ _⟩
    simp only [owner_event]
    split
    · rename_i hstate
      cases hfind : find_incr_state reg w' a' with
      | none => exact h
      | some st' =>
        have hlk : lookup reg w' a' = reg[st']? := (find_incr_state_lookup reg w' a' st' hfind).symm
        cases hget : reg[st']? with
        | none =>
          simp only [send_incr_chunk, hget]
          exact h
        | some u =>
          rw [hget] at hlk
          obtain ⟨_, hw', hp'⟩ := lookup_some reg w' a' u hlk
          have hu : ¬ (u.requestor = w ∧ u.property = p) := by
            intro hk
            apply hne
            rw [hstate, ← hw', ← hp', hk.1, hk.2]
          simp only [send_incr_chunk, hget]
          split
          · exact (key_states_set_other reg w p st' u
              { u with offset := (u.offset + chunk_size chunk u) % WORD } hget hu hu).trans h
          · exact key_states_remove_other reg w p st' u t hget hu h
    · exact h
  | SelectionRequest xsr =>
    simp only [leaves_key, Bool.not_eq_true', Bool.and_eq_false_imp, decide_eq_false_iff_not]
      at hleave
    simp only [owner_event, selection_request]
    split
    · exact ⟨h, rfl⟩
    · rename_i hsel
      split
      · rename_i htarget
        split
        · rename_i hlarge
          have hst : starts_incr o xsr = true := by
            simp only [starts_incr, decide_eq_true_eq]
            exact ⟨not_not.mp hsel, htarget, hlarge⟩
          have hk := hleave hst
          refine ⟨?_, rfl⟩
          simp only [add_incr_state, key_states, List.filter_append, List.filter_cons, hk,
            decide_False, Bool.false_eq_true, if_false, List.filter_nil, List.append_nil]
          exact h
        · exact ⟨h, rfl⟩
      · split
        · exact ⟨h, rfl⟩
        · exact ⟨h, rfl⟩

/-- Along events that leave the key alone, its one state only advances: after `j`
property-delete notifications for the key, while data is left for each of them, its
offset has moved on by `j` chunks, and the loop is still running. -/
theorem owner_loop_key_state (chunk : Nat) (o : Owner) (w : Window) (p : Atom)
    (hchunk : 0 < chunk) :
    ∀ (events : List (XEvent × Int)) (notified : Int) (reg : Registry) (t : incr_state_t),
      key_states reg w p = [t] → t.offset ≤ t.total_size → t.total_size < WORD →
      events.all (fun e => leaves_key o w p e.1) = true →
      notifications_for w p events * chunk < t.total_size - t.offset + chunk →
      key_states (owner_loop chunk o notified reg events).reg w p =
        [{ t with
           offset := (min t.total_size (t.offset + notifications_for w p events * chunk)) }] ∧
      (owner_loop chunk o notified reg events).ret = none := by
  intro events
  induction events with
  | nil =>
    intro notified reg t h hinv _ _ _
    simp only [owner_loop, notifications_for, List.countP_nil, Nat.zero_mul, Nat.add_zero,
      Nat.min_eq_right hinv, and_true]
    exact h
  | cons e rest ih =>
    intro notified reg t h hinv hN hall hcount
    obtain ⟨event, R⟩ := e
    simp only [List.all_cons, Bool.and_eq_true] at hall
    obtain ⟨hkw, hkp⟩ := key_states_mem reg w p t h
    by_cases hev : event = XEvent.PropertyNotify w p PropertyDelete
    · subst hev
      have hc : notifications_for w p
          ((XEvent.PropertyNotify w p PropertyDelete, R) :: rest) =
          notifications_for w p rest + 1 := by
        simp [notifications_for]
      rw [hc, Nat.add_mul, Nat.one_mul] at hcount
      obtain ⟨st, hfind, hget⟩ := key_states_find reg w p t h
      have hpos : 0 < min chunk (t.total_size - t.offset) := by omega
      have hstep : owner_event chunk o reg (XEvent.PropertyNotify w p PropertyDelete) R =
          { reg := reg.set st
              { t with offset := t.offset + min chunk (t.total_size - t.offset) },
            calls := [Call.XChangeProperty
              { display := t.display, w := t.requestor, property := t.property,
                type := t.target, format := 8, mode := PropModeReplace,
                data := (t.data.drop t.offset).take (min chunk (t.total_size - t.offset)),
                nelements := min chunk (t.total_size - t.offset) }],
            ret := none } := by
        have := owner_event_delete_found chunk o reg st t R hget
          (by rw [hkw, hkp]; exact hfind) hinv hN
        rw [if_pos hpos] at this
        rw [← hkw, ← hkp]
        exact this
      rw [owner_loop_cons_none _ _ _ _ _ _ _ (by rw [hstep])]
      simp only [hstep]
      have h2 := key_states_set_own reg w p st t
        { t with offset := t.offset + min chunk (t.total_size - t.offset) } hget h hkw hkp
      obtain ⟨ih1, ih2⟩ := ih 1 _ _ h2 (by simp only; omega) hN hall.2 (by simp only; omega)
      refine ⟨?_, ih2⟩
      rw [ih1, hc]
      simp only [Nat.add_mul, Nat.one_mul, List.cons.injEq, and_true]
      congr 1
      omega
    · have hc : notifications_for w p ((event, R) :: rest) = notifications_for w p rest := by
        simp [notifications_for, hev]
      rw [hc] at hcount ⊢
      obtain ⟨h2, hret⟩ := owner_event_leaves_key chunk o reg w p t event R hall.1 hev h
      rw [owner_loop_cons_none _ _ _ _ _ _ _ hret]
      exact ih 1 _ t h2 hinv hN hall.2 hcount

/-- C12 as stated fails for a state that is not the only one of its key. Window 7
requests a payload of 262145 bytes, takes one chunk and requests again: the registry holds
the state of the first request at offset 65536 and, behind it, the state of the second at
offset 0, with the same key. The next notification for the key advances the first state
and leaves the second at offset 0, and after `ceil (262145 / 65536) + 1 = 6` notifications
for the key the second state is still in the registry, at offset 65536. -/
theorem notification_served_from_older_state :
    (owner_loop INCR_CHUNK_SIZE large_owner 0 []
        [(XEvent.SelectionRequest (request_from 7), 1),
         (XEvent.PropertyNotify 7 9 PropertyDelete, 0),
         (XEvent.SelectionRequest (request_from 7), 1)]).reg.map
        (fun s => (key s, s.offset, s.total_size)) =
      [((7, 9), 65536, 262145), ((7, 9), 0, 262145)] ∧
    (owner_event INCR_CHUNK_SIZE large_owner
        (owner_loop INCR_CHUNK_SIZE large_owner 0 []
          [(XEvent.SelectionRequest (request_from 7), 1),
           (XEvent.PropertyNotify 7 9 PropertyDelete, 0),
           (XEvent.SelectionRequest (request_from 7), 1)]).reg
        (XEvent.PropertyNotify 7 9 PropertyDelete) 0).reg.map
        (fun s => (key s, s.offset, s.total_size)) =
      [((7, 9), 131072, 262145), ((7, 9), 0, 262145)] ∧
    (262145 + INCR_CHUNK_SIZE - 1) / INCR_CHUNK_SIZE + 1 = 6 ∧
    (owner_loop INCR_CHUNK_SIZE large_owner 1
        (owner_loop INCR_CHUNK_SIZE large_owner 0 []
          [(XEvent.SelectionRequest (request_from 7), 1),
           (XEvent.PropertyNotify 7 9 PropertyDelete, 0),
           (XEvent.SelectionRequest (request_from 7), 1)]).reg
        (List.replicate 6 (XEvent.PropertyNotify 7 9 PropertyDelete, 0))).reg.map
        (fun s => (key s, s.offset, s.total_size)) =
      [((7, 9), 65536, 262145)] := by
  decide

/-- C12, amended. For a transfer state with `N` payload bytes (`N` below `2 ^ 64`) at
offset 0 that is the only state in the registry with its requestor and property, let the
event loop handle any events among which there is no `SelectionClear` and no request that
starts another transfer for that requestor and property, `i - 1` of them property-delete
notifications for the key, `i ≤ ceil (N / 65536) + 1`. The loop is still running and the
state is still the only one of its key, at the offset `min N ((i - 1) * 65536)`. If
`i ≤ ceil (N / 65536)`, that offset is `(i - 1) * 65536`, below `N`, and handling the
`i`-th notification the loop finds the state and makes one call, a format 8 write of the
state's target type on its requestor and property, of exactly `min 65536 (N - offset)`
bytes, at least one, taken from the payload at the offset, and advances the offset by that
number. If `i = ceil (N / 65536) + 1`, the offset is `N`, and handling the `i`-th
notification the loop finds the state, writes zero items and removes it: what is left is
the other entries, one entry less, none of them with the key. -/
theorem producer_chunk_protocol (o : Owner) (reg : Registry) (s : incr_state_t)
    (notified : Int) (events : List (XEvent × Int)) (i : Nat) (R : Int)
    (hsole : key_states reg s.requestor s.property = [s])
    (hoff : s.offset = 0) (hN : s.total_size < WORD) (hdata : s.data.length = s.total_size)
    (hleave : events.all (fun e => leaves_key o s.requestor s.property e.1) = true)
    (hcount : notifications_for s.requestor s.property events + 1 = i)
    (hi : i ≤ (s.total_size + INCR_CHUNK_SIZE - 1) / INCR_CHUNK_SIZE + 1) :
    (owner_loop INCR_CHUNK_SIZE o notified reg events).ret = none ∧
    key_states (owner_loop INCR_CHUNK_SIZE o notified reg events).reg s.requestor s.property =
      [{ s with offset := (min s.total_size ((i - 1) * INCR_CHUNK_SIZE)) }] ∧
    (i ≤ (s.total_size + INCR_CHUNK_SIZE - 1) / INCR_CHUNK_SIZE →
      (i - 1) * INCR_CHUNK_SIZE < s.total_size ∧
      0 < min INCR_CHUNK_SIZE (s.total_size - (i - 1) * INCR_CHUNK_SIZE) ∧
      ((s.data.drop ((i - 1) * INCR_CHUNK_SIZE)).take
        (min INCR_CHUNK_SIZE (s.total_size - (i - 1) * INCR_CHUNK_SIZE))).length =
        min INCR_CHUNK_SIZE (s.total_size - (i - 1) * INCR_CHUNK_SIZE) ∧
      ∃ st,
        find_incr_state (owner_loop INCR_CHUNK_SIZE o notified reg events).reg
          s.requestor s.property = some st ∧
        (owner_loop INCR_CHUNK_SIZE o notified reg events).reg[st]? =
          some { s with offset := (i - 1) * INCR_CHUNK_SIZE } ∧
        owner_event INCR_CHUNK_SIZE o (owner_loop INCR_CHUNK_SIZE o notified reg events).reg
            (XEvent.PropertyNotify s.requestor s.property PropertyDelete) R =
          { reg := (owner_loop INCR_CHUNK_SIZE o notified reg events).reg.set st
              { s with
                offset := ((i - 1) * INCR_CHUNK_SIZE +
                  min INCR_CHUNK_SIZE (s.total_size - (i - 1) * INCR_CHUNK_SIZE)) },
            calls := [Call.XChangeProperty
              { display := s.display, w := s.requestor, property := s.property,
                type := s.target, format := 8, mode := PropModeReplace,
                data := (s.data.drop ((i - 1) * INCR_CHUNK_SIZE)).take
                  (min INCR_CHUNK_SIZE (s.total_size - (i - 1) * INCR_CHUNK_SIZE)),
                nelements := min INCR_CHUNK_SIZE (s.total_size - (i - 1) * INCR_CHUNK_SIZE) }],
            ret := none } ∧
        key_states
            ((owner_loop INCR_CHUNK_SIZE o notified reg events).reg.set st
              { s with
                offset := ((i - 1) * INCR_CHUNK_SIZE +
                  min INCR_CHUNK_SIZE (s.total_size - (i - 1) * INCR_CHUNK_SIZE)) })
            s.requestor s.property =
          [{ s with
             offset := ((i - 1) * INCR_CHUNK_SIZE +
               min INCR_CHUNK_SIZE (s.total_size - (i - 1) * INCR_CHUNK_SIZE)) }]) ∧
    (i = (s.total_size + INCR_CHUNK_SIZE - 1) / INCR_CHUNK_SIZE + 1 →
      ∃ st,
        find_incr_state (owner_loop INCR_CHUNK_SIZE o notified reg events).reg
          s.requestor s.property = some st ∧
        (owner_loop INCR_CHUNK_SIZE o notified reg events).reg[st]? =
          some { s with offset := s.total_size } ∧
        owner_event INCR_CHUNK_SIZE o (owner_loop INCR_CHUNK_SIZE o notified reg events).reg
            (XEvent.PropertyNotify s.requestor s.property PropertyDelete) R =
          { reg := remove_incr_state (some st)
              (owner_loop INCR_CHUNK_SIZE o notified reg events).reg,
            calls := [Call.XChangeProperty
              { display := s.display, w := s.requestor, property := s.property,
                type := s.target, format := 8, mode := PropModeReplace, data := [],
                nelements := 0 }],
            ret := none } ∧
        (remove_incr_state (some st)
            (owner_loop INCR_CHUNK_SIZE o notified reg events).reg).length =
          (owner_loop INCR_CHUNK_SIZE o notified reg events).reg.length - 1 ∧
        (remove_incr_state (some st)
            (owner_loop INCR_CHUNK_SIZE o notified reg events).reg).Perm
          ((owner_loop INCR_CHUNK_SIZE o notified reg events).reg.eraseIdx st) ∧
        find_incr_state
            (remove_incr_state (some st)
              (owner_loop INCR_CHUNK_SIZE o notified reg events).reg)
            s.requestor s.property = none) := by
  have hchunk : 0 < INCR_CHUNK_SIZE := by decide
  have hdm := Nat.div_add_mod (s.total_size + INCR_CHUNK_SIZE - 1) INCR_CHUNK_SIZE
  have hml := Nat.mod_lt (s.total_size + INCR_CHUNK_SIZE - 1) hchunk
  rw [Nat.mul_comm] at hdm
  obtain ⟨j, rfl⟩ : ∃ j, i = j + 1 := ⟨i - 1, by omega⟩
  simp only [Nat.add_sub_cancel]
  have hj : notifications_for s.requestor s.property events = j := by omega
  have hjle : j ≤ (s.total_size + INCR_CHUNK_SIZE - 1) / INCR_CHUNK_SIZE := by omega
  have hmul := Nat.mul_le_mul_right INCR_CHUNK_SIZE hjle
  obtain ⟨hks, hret⟩ := owner_loop_key_state INCR_CHUNK_SIZE o s.requestor s.property hchunk
    events notified reg s hsole (by omega) hN hleave (by rw [hj]; omega)
  rw [hj, hoff, Nat.zero_add] at hks
  obtain ⟨st, hfind, hget⟩ := key_states_find _ _ _ _ hks
  have hlt := (List.getElem?_eq_some.mp hget).1
  have hstep := owner_event_delete_found INCR_CHUNK_SIZE o _ st _ R hget hfind
    (Nat.min_le_left _ _) hN
  simp only at hstep
  refine ⟨hret, hks, ?_, ?_⟩
  · intro hlt2
    have hmul2 := Nat.mul_le_mul_right INCR_CHUNK_SIZE hlt2
    rw [Nat.add_mul, Nat.one_mul] at hmul2
    have hjlt : j * INCR_CHUNK_SIZE < s.total_size := by omega
    have hmin : min s.total_size (j * INCR_CHUNK_SIZE) = j * INCR_CHUNK_SIZE :=
      Nat.min_eq_right (Nat.le_of_lt hjlt)
    have hpos : 0 < min INCR_CHUNK_SIZE (s.total_size - j * INCR_CHUNK_SIZE) := by omega
    rw [hmin] at hks hget hstep
    rw [if_pos hpos] at hstep
    refine ⟨hjlt, hpos, ?_, st, hfind, hget, hstep, ?_⟩
    · rw [List.length_take, List.length_drop, hdata]
      omega
    · exact key_states_set_own _ _ _ st _ _ hget hks rfl rfl
  · intro heq
    have hjeq : j * INCR_CHUNK_SIZE =
        (s.total_size + INCR_CHUNK_SIZE - 1) / INCR_CHUNK_SIZE * INCR_CHUNK_SIZE := by
      rw [show j = (s.total_size + INCR_CHUNK_SIZE - 1) / INCR_CHUNK_SIZE by omega]
    have hmin : min s.total_size (j * INCR_CHUNK_SIZE) = s.total_size :=
      Nat.min_eq_left (by omega)
    rw [hmin] at hks hget hstep
    simp only [Nat.sub_self, Nat.min_zero, Nat.lt_irrefl, if_false] at hstep
    refine ⟨st, hfind, hget, hstep, remove_incr_state_length _ _,
      remove_incr_state_perm _ st hlt, ?_⟩
    exact key_states_nil_find _ _ _ (key_states_remove_own _ _ _ st _ hget hks)

/-- C12, amended, at a registry that holds a transfer of 262145 bytes for window 8 and
one for window 7, and events among which are five notifications for window 7: the loop is
still running and the state of window 7 is the only one of its key, at the offset
`min 262145 (5 * 65536)`, before notification number `ceil (262145 / 65536) + 1`. -/
theorem producer_chunk_protocol_witness :
    (key_states
        [transfer 1 8 9 5 (List.replicate 262145 0) 65536,
         transfer 1 7 9 5 (List.replicate 262145 0) 0] 7 9 =
        [transfer 1 7 9 5 (List.replicate 262145 0) 0] ∧
      (transfer 1 7 9 5 (List.replicate 262145 0) 0).offset = 0 ∧
      (transfer 1 7 9 5 (List.replicate 262145 0) 0).total_size < WORD ∧
      (transfer 1 7 9 5 (List.replicate 262145 0) 0).data.length =
        (transfer 1 7 9 5 (List.replicate 262145 0) 0).total_size ∧
      interleaved_events.all (fun e => leaves_key large_owner 7 9 e.1) = true ∧
      notifications_for 7 9 interleaved_events + 1 = 6 ∧
      6 ≤ ((transfer 1 7 9 5 (List.replicate 262145 0) 0).total_size + INCR_CHUNK_SIZE - 1) /
        INCR_CHUNK_SIZE + 1) ∧
    (owner_loop INCR_CHUNK_SIZE large_owner 1
        [transfer 1 8 9 5 (List.replicate 262145 0) 65536,
         transfer 1 7 9 5 (List.replicate 262145 0) 0] interleaved_events).ret = none ∧
    key_states
        (owner_loop INCR_CHUNK_SIZE large_owner 1
          [transfer 1 8 9 5 (List.replicate 262145 0) 65536,
           transfer 1 7 9 5 (List.replicate 262145 0) 0] interleaved_events).reg 7 9 =
      [{ transfer 1 7 9 5 (List.replicate 262145 0) 0 with
         offset := (min (transfer 1 7 9 5 (List.replicate 262145 0) 0).total_size
           ((6 - 1) * INCR_CHUNK_SIZE)) }] := by
  have hlen : (transfer 1 7 9 5 (List.replicate 262145 0) 0).total_size = 262145 :=
    List.length_replicate _ _
  have hN : (transfer 1 7 9 5 (List.replicate 262145 0) 0).total_size < WORD := by
    rw [hlen]
    decide
  have hi : 6 ≤ ((transfer 1 7 9 5 (List.replicate 262145 0) 0).total_size +
      INCR_CHUNK_SIZE - 1) / INCR_CHUNK_SIZE + 1 := by
    rw [hlen]
    decide
  have h := producer_chunk_protocol large_owner
    [transfer 1 8 9 5 (List.replicate 262145 0) 65536,
     transfer 1 7 9 5 (List.replicate 262145 0) 0]
    (transfer 1 7 9 5 (List.replicate 262145 0) 0) 1 interleaved_events 6 0 rfl rfl hN rfl
    (by decide) (by decide) hi
  exact ⟨⟨rfl, rfl, hN, rfl, by decide, by decide, hi⟩, h.1, h.2.1⟩

/-! ## C13: the reassembly of the consumer -/

theorem incr_skip_eq (window : Window) (prop : Atom) (event : XEvent) :
    incr_skip window prop event = !incr_match window prop event := by
  cases event with
  | PropertyNotify w a st =>
    simp only [incr_skip, incr_match, XEvent.PropertyNotify.injEq]
    by_cases h1 : w = window <;> by_cases h2 : a = prop <;>
      by_cases h3 : st = PropertyNewValue <;> simp [h1, h2, h3]
  | SelectionClear => simp [incr_skip, incr_match]
  | SelectionNotify sev => simp [incr_skip, incr_match]
  | SelectionRequest xsr => simp [incr_skip, incr_match]
  | Other t => simp [incr_skip, incr_match]

/-- An event that does not match is passed over: only `XNextEvent` is called. -/
theorem incr_loop_skip (display : Display) (window : Window) (prop target : Atom)
    (event : XEvent) (g : GetPropResult) (rest : List (XEvent × GetPropResult))
    (acc : Option (List Nat)) (tot : Nat) (h : incr_match window prop event = false) :
    incr_loop display window prop target ((event, g) :: rest) acc tot =
      (incr_loop display window prop target rest acc tot).map
        fun r => { r with calls := Call.XNextEvent display :: r.calls } := by
  simp [incr_loop, incr_skip_eq, h]

/-- The result of the INCR loop on any stream, from any accumulated buffer and total:
whatever the formats, it appends the first `size` bytes of each buffer. -/
theorem incr_loop_spec (display : Display) (window : Window) (prop target : Atom) :
    ∀ (events : List (XEvent × GetPropResult)) (acc : Option (List Nat)) (tot : Nat),
      tot < WORD →
      (incr_loop display window prop target events acc tot).map
          (fun r => (r.incr_buf, r.total_size)) =
        if (incr_reads window prop events).any read_ends then
          some (if incr_chunks window prop events = [] then acc
                else some (acc.getD [] ++ copied_bytes (incr_chunks window prop events)),
            (tot + ((incr_chunks window prop events).map fun g => g.size).sum) % WORD)
        else none := by
  intro events
  induction events with
  | nil => intro acc tot _; simp [incr_loop, incr_reads]
  | cons e rest ih =>
    intro acc tot htot
    obtain ⟨event, g⟩ := e
    by_cases hm : incr_match window prop event = true
    · have hreads : incr_reads window prop ((event, g) :: rest) =
          g :: incr_reads window prop rest := by
        simp [incr_reads, hm]
      by_cases hret : g.ret ≠ Success
      · have hend : read_ends g = true := by simp [read_ends, hret]
        simp [incr_loop, incr_skip_eq, hm, hret, incr_chunks, hreads, hend,
          Nat.mod_eq_of_lt htot]
      · by_cases hsize : g.size = 0
        · have hend : read_ends g = true := by simp [read_ends, hsize]
          simp [incr_loop, incr_skip_eq, hm, hret, hsize, incr_chunks, hreads, hend,
            Nat.mod_eq_of_lt htot]
        · have hend : read_ends g = false := by
            simp only [read_ends, decide_eq_false_iff_not, not_or, not_not]
            exact ⟨not_not.mp hret, hsize⟩
          have hchunks : incr_chunks window prop ((event, g) :: rest) =
              g :: incr_chunks window prop rest := by
            simp [incr_chunks, hreads, hend]
          have hih := ih (some (acc.getD [] ++ g.data.take g.size)) ((tot + g.size) % WORD)
            (Nat.mod_lt _ (by decide))
          have hloop : incr_loop display window prop target ((event, g) :: rest) acc tot =
              (incr_loop display window prop target rest
                (some (acc.getD [] ++ g.data.take g.size)) ((tot + g.size) % WORD)).map
                fun r => { r with calls :=
                  [Call.XNextEvent display,
                   Call.XGetWindowProperty display window prop true target,
                   Call.XFree] ++ r.calls } := by
            simp [incr_loop, incr_skip_eq, hm, not_not.mp hret, hsize]
          rw [hloop, Option.map_map]
          simp only [Function.comp_def]
          rw [hih, hchunks, hreads]
          simp only [List.any_cons, hend, Bool.false_or, List.map_cons, List.sum_cons,
            Nat.mod_add_mod, Nat.add_assoc, Option.getD_some, copied_bytes,
            List.flatten_cons, List.append_assoc]
          split
          · by_cases hc : incr_chunks window prop rest = []
            · simp [hc]
            · simp [hc]
          · rfl
    · have hm' : incr_match window prop event = false := by simpa using hm
      have hreads : incr_reads window prop ((event, g) :: rest) =
          incr_reads window prop rest := by
        simp [incr_reads, hm']
      rw [incr_loop_skip display window prop target event g rest acc tot hm', Option.map_map]
      simp only [Function.comp_def]
      rw [ih acc tot htot]
      simp only [incr_chunks, hreads]

/-- For reads of format 8 the bytes copied are the chunks, and their number is the number
of items. -/
theorem copied_bytes_format8 (reads : List GetPropResult)
    (hfmt : ∀ g ∈ reads, g.format = 8) (hwf : ∀ g ∈ reads, whole_items g) :
    copied_bytes reads = chunk_bytes reads ∧
    (chunk_bytes reads).length = (reads.map fun g => g.size).sum := by
  induction reads with
  | nil => exact ⟨rfl, rfl⟩
  | cons g rest ih =>
    have h1 := hwf g (List.mem_cons_self _ _)
    have h2 := hfmt g (List.mem_cons_self _ _)
    obtain ⟨ih1, ih2⟩ := ih (fun g' hg' => hfmt g' (List.mem_cons_of_mem _ hg'))
      (fun g' hg' => hwf g' (List.mem_cons_of_mem _ hg'))
    simp only [whole_items, h2, item_width, if_true, Nat.mul_one] at h1
    simp only [copied_bytes, chunk_bytes, List.map_cons, List.flatten_cons,
      List.length_append, List.sum_cons] at ih1 ih2 ⊢
    rw [ih1, ih2, ← h1, List.take_length]
    exact ⟨rfl, rfl⟩

/-- C13 as stated fails for a chunk whose format is not 8. A peer writes one item, 513,
in format 32 and then the empty property: the read of the chunk returns the eight bytes
of the item as a `long`, the INCR loop copies as many bytes as there are items, and ends
with the one byte 1 and a total of 1. -/
theorem incr_loop_truncates_wide_chunk :
    chunk_events 5
        [Call.XChangeProperty
           { display := 1, w := 7, property := 9, type := 5, format := 32, mode := 0,
             data := [513], nelements := 1 },
         Call.XChangeProperty
           { display := 1, w := 7, property := 9, type := 5, format := 8, mode := 0,
             data := [], nelements := 0 }] =
      [(XEvent.PropertyNotify 7 9 PropertyNewValue,
          { ret := 0, actual := 5, format := 32, size := 1, n := 0,
            data := [1, 2, 0, 0, 0, 0, 0, 0] }),
       (XEvent.PropertyNotify 7 9 PropertyNewValue,
          { ret := 0, actual := 5, format := 8, size := 0, n := 0, data := [] })] ∧
    chunk_bytes (incr_chunks 7 9
        [(XEvent.PropertyNotify 7 9 PropertyNewValue,
            { ret := 0, actual := 5, format := 32, size := 1, n := 0,
              data := [1, 2, 0, 0, 0, 0, 0, 0] }),
         (XEvent.PropertyNotify 7 9 PropertyNewValue,
            { ret := 0, actual := 5, format := 8, size := 0, n := 0, data := [] })]) =
      [1, 2, 0, 0, 0, 0, 0, 0] ∧
    (incr_loop 2 7 9 5
        [(XEvent.PropertyNotify 7 9 PropertyNewValue,
            { ret := 0, actual := 5, format := 32, size := 1, n := 0,
              data := [1, 2, 0, 0, 0, 0, 0, 0] }),
         (XEvent.PropertyNotify 7 9 PropertyNewValue,
            { ret := 0, actual := 5, format := 8, size := 0, n := 0, data := [] })]
        none 0).map (fun r => (r.incr_buf, r.total_size)) = some (some [1], 1) := by
  decide

/-- C13, amended. For an event stream that holds a matching event (a `PropertyNotify` of
state `PropertyNewValue` on the reader's window and reply property) whose read fails or
returns zero items, where every read before that has format 8 and returns the items it
reports, and the total stays below `2 ^ 64`: the INCR loop of `read_data` ends with the
concatenation, in order of arrival, of the chunks read on the matching events before that
one, and with its length as the total; its buffer is `NULL` exactly when there is no such
chunk. `read_data`, entered on a reply of type INCR, returns that total and hands the
buffer to a non-null `buf`. Every event that does not match is passed over with no call
but `XNextEvent`, and on a stream without an ending read the loop is left waiting. -/
theorem consumer_reassembly (display : Display) (window : Window) (prop target : Atom)
    (events : List (XEvent × GetPropResult))
    (hend : (incr_reads window prop events).any read_ends = true)
    (hfmt : ∀ g ∈ incr_chunks window prop events, g.format = 8)
    (hwf : ∀ g ∈ incr_chunks window prop events, whole_items g)
    (hlen : (chunk_bytes (incr_chunks window prop events)).length < WORD) :
    (incr_loop display window prop target events none 0).map
        (fun r => (r.incr_buf.getD [], r.total_size)) =
      some (chunk_bytes (incr_chunks window prop events),
        (chunk_bytes (incr_chunks window prop events)).length) ∧
    (∀ r, incr_loop display window prop target events none 0 = some r →
      (r.incr_buf = none ↔ incr_chunks window prop events = [])) ∧
    (∀ (env : XEnv) (sev : XSelectionEvent) (sel : Atom) (first : GetPropResult) (buf : Bool),
      initX11 env = true → sev.property = prop → sev.selection = sel → prop ≠ None →
      first.ret = Success → first.actual = env.XInternAtom "INCR" false →
      (read_data env display window sev sel prop target buf first events).map
          (fun r => (r.ret, r.buf)) =
        some ((chunk_bytes (incr_chunks window prop events)).length,
          if buf = true ∧ incr_chunks window prop events ≠ [] then
            some (chunk_bytes (incr_chunks window prop events))
          else none)) ∧
    (∀ (event : XEvent) (g : GetPropResult) (rest : List (XEvent × GetPropResult))
      (acc : Option (List Nat)) (tot : Nat), incr_match window prop event = false →
      incr_loop display window prop target ((event, g) :: rest) acc tot =
        (incr_loop display window prop target rest acc tot).map
          fun r => { r with calls := Call.XNextEvent display :: r.calls }) ∧
    (∀ (stream : List (XEvent × GetPropResult)),
      (incr_reads window prop stream).any read_ends = false →
      incr_loop display window prop target stream none 0 = none) := by
  have hspec := incr_loop_spec display window prop target events none 0 (by decide)
  obtain ⟨hcopy, hsum⟩ := copied_bytes_format8 _ hfmt hwf
  rw [hend, if_pos rfl, Nat.zero_add, ← hsum, Nat.mod_eq_of_lt hlen, hcopy] at hspec
  cases hloop : incr_loop display window prop target events none 0 with
  | none => rw [hloop] at hspec; cases hspec
  | some r =>
    rw [hloop] at hspec
    simp only [Option.map_some', Option.some.injEq, Prod.mk.injEq, Option.getD_none,
      List.nil_append] at hspec
    obtain ⟨hbuf, htot⟩ := hspec
    have hnone : r.incr_buf = none ↔ incr_chunks window prop events = [] := by
      rw [hbuf]
      by_cases hc : incr_chunks window prop events = [] <;> simp [hc]
    refine ⟨?_, ?_, ?_, incr_loop_skip display window prop target, ?_⟩
    · simp only [Option.map_some', Option.some.injEq, Prod.mk.injEq, htot, and_true]
      rw [hbuf]
      by_cases hc : incr_chunks window prop events = []
      · simp [hc, chunk_bytes]
      · simp [hc]
    · intro r' hr'
      cases hr'
      exact hnone
    · intro env sev sel first buf hinit hprop hsel hp hret hact
      simp only [read_data, hinit, hprop, hsel, hp, hret, hact, hloop, Bool.not_true,
        Bool.false_eq_true, if_false, ne_eq, not_true_eq_false, or_self,
        Option.map_some', htot, Option.some.injEq, Prod.mk.injEq, true_and]
      by_cases hc : incr_chunks window prop events = []
      · have := hnone.mpr hc
        simp [hc, this]
      · have hne : r.incr_buf ≠ none := fun h => hc (hnone.mp h)
        cases buf
        · simp
        · simp only [hne, not_false_eq_true, and_self, if_true, hc]
          rw [hbuf, if_neg hc]
          rfl
    · intro stream hstream
      have h := incr_loop_spec display window prop target stream none 0 (by decide)
      rw [hstream] at h
      simpa using h

/-- C13, amended, at a stream of a foreign event, two chunks of format 8 and the ending
read. -/
theorem consumer_reassembly_witness :
    ((incr_reads 7 9
        [(XEvent.PropertyNotify 7 9 PropertyDelete,
            { ret := 0, actual := 5, format := 8, size := 9, n := 0, data := [9] }),
         (XEvent.PropertyNotify 7 9 PropertyNewValue,
            { ret := 0, actual := 5, format := 8, size := 2, n := 0, data := [1, 2] }),
         (XEvent.PropertyNotify 7 9 PropertyNewValue,
            { ret := 0, actual := 5, format := 8, size := 1, n := 0, data := [3] }),
         (XEvent.PropertyNotify 7 9 PropertyNewValue,
            { ret := 0, actual := 5, format := 8, size := 0, n := 0, data := [] })]).any
        read_ends = true) ∧
    (incr_loop 2 7 9 5
        [(XEvent.PropertyNotify 7 9 PropertyDelete,
            { ret := 0, actual := 5, format := 8, size := 9, n := 0, data := [9] }),
         (XEvent.PropertyNotify 7 9 PropertyNewValue,
            { ret := 0, actual := 5, format := 8, size := 2, n := 0, data := [1, 2] }),
         (XEvent.PropertyNotify 7 9 PropertyNewValue,
            { ret := 0, actual := 5, format := 8, size := 1, n := 0, data := [3] }),
         (XEvent.PropertyNotify 7 9 PropertyNewValue,
            { ret := 0, actual := 5, format := 8, size := 0, n := 0, data := [] })]
        none 0).map (fun r => (r.incr_buf.getD [], r.total_size)) = some ([1, 2, 3], 3) :=
  ⟨by decide,
    ((consumer_reassembly 2 7 9 5 _ (by decide) (by decide) (by decide) (by decide)).1).trans
      (by decide)⟩

/-! ## C14: the results of `read_data` -/

/-- C14 as stated fails in the branch that hands the property over, the actual type being
the requested target and not the INCR atom. For a null `buf` and a property of two bytes,
`read_data` returns 0, not the count 2, and hands over no bytes. For a non-null `buf` and
a property of two items of format 16, 258 and 3, its four bytes 2, 1, 3, 0 in the buffer,
`read_data` returns 2 and hands over the first two bytes. -/
theorem read_data_not_whole_property :
    initX11 { sample_env with libX11 := true } = true ∧
    (101 : Atom) ≠ sample_env.XInternAtom "INCR" false ∧
    (read_data { sample_env with libX11 := true } 1 7
      { type := 31, display := 1, requestor := 7, selection := 100, target := 101,
        property := 105, time := 0 } 100 105 101 false
      { ret := 0, actual := 101, format := 8, size := 2, n := 0, data := [104, 105] }
      []).map (fun r => (r.ret, r.buf)) = some (0, none) ∧
    get_property AnyPropertyType
        { display := 1, w := 7, property := 105, type := 101, format := 16, mode := 0,
          data := [258, 3], nelements := 2 } =
      { ret := 0, actual := 101, format := 16, size := 2, n := 0, data := [2, 1, 3, 0] } ∧
    (read_data { sample_env with libX11 := true } 1 7
      { type := 31, display := 1, requestor := 7, selection := 100, target := 101,
        property := 105, time := 0 } 100 105 101 true
      { ret := 0, actual := 101, format := 16, size := 2, n := 0, data := [2, 1, 3, 0] }
      []).map (fun r => (r.ret, r.buf)) = some (2, some [2, 1]) := by
  decide

/-- C14, amended. With libX11 loaded, `read_data` returns 0 and sets no buffer: without
any call when the event carries the property `None`, a selection other than the requested
one, or a property other than the reply property; after the one property read when that
read fails; and, deleting the property, when the actual type is neither the INCR atom
nor the requested target, or is the requested target while `buf` is null. When the actual
type is the requested target and not the INCR atom, the property has format 8 (the buffer
holds one byte per item) and `buf` is non-null, it hands over the bytes of the buffer,
returns their number, and deletes the property. -/
theorem read_data_results (env : XEnv) (display : Display) (window : Window)
    (sev : XSelectionEvent) (sel prop target : Atom) (buf : Bool) (first : GetPropResult)
    (events : List (XEvent × GetPropResult)) (hinit : initX11 env = true) :
    (sev.property = None ∨ sev.selection ≠ sel ∨ sev.property ≠ prop →
      read_data env display window sev sel prop target buf first events =
        some { ret := 0, buf := none, calls := [] }) ∧
    (¬ (sev.property = None ∨ sev.selection ≠ sel ∨ sev.property ≠ prop) →
      (first.ret ≠ Success →
        read_data env display window sev sel prop target buf first events =
          some { ret := 0, buf := none,
                 calls := [Call.XGetWindowProperty sev.display sev.requestor sev.property
                   false AnyPropertyType] }) ∧
      (first.ret = Success → first.actual ≠ env.XInternAtom "INCR" false →
        (first.actual ≠ target ∨ buf = false →
          read_data env display window sev sel prop target buf first events =
            some { ret := 0, buf := none,
                   calls := [Call.XGetWindowProperty sev.display sev.requestor sev.property
                       false AnyPropertyType,
                     Call.XInternAtom display "INCR" false, Call.XFree,
                     Call.XDeleteProperty sev.display sev.requestor sev.property] }) ∧
        (first.actual = target → buf = true → first.format = 8 → whole_items first →
          first.size < WORD →
          read_data env display window sev sel prop target buf first events =
            some { ret := first.data.length, buf := some first.data,
                   calls := [Call.XGetWindowProperty sev.display sev.requestor sev.property
                       false AnyPropertyType,
                     Call.XInternAtom display "INCR" false, Call.XFree,
                     Call.XDeleteProperty sev.display sev.requestor sev.property] }))) := by
  refine ⟨fun h => ?_, fun h => ⟨fun hret => ?_, fun hret hincr => ⟨fun hne => ?_,
    fun heq hbuf hfmt hwf hsize => ?_⟩⟩⟩
  · simp [read_data, hinit, h]
  · simp [read_data, hinit, h, hret]
  · rcases hne with hne | hne
    · simp [read_data, hinit, h, hret, hincr, hne]
    · simp [read_data, hinit, h, hret, hincr, hne]
  · subst heq
    simp only [whole_items, hfmt, item_width, if_true, Nat.mul_one] at hwf
    simp [read_data, hinit, h, hret, hincr, hbuf, Nat.mod_eq_of_lt hsize, hwf]

/-- C14, amended, at a reply of the requested type and format 8 read into a non-null
`buf`. -/
theorem read_data_results_witness :
    initX11 { sample_env with libX11 := true } = true ∧
    (read_data { sample_env with libX11 := true } 1 7
      { type := 31, display := 1, requestor := 7, selection := 100, target := 101,
        property := 105, time := 0 } 100 105 101 true
      { ret := 0, actual := 101, format := 8, size := 2, n := 0, data := [104, 105] }
      []).map (fun r => (r.ret, r.buf)) = some (2, some [104, 105]) :=
  ⟨by decide, by
    rw [((read_data_results { sample_env with libX11 := true } 1 7
      { type := 31, display := 1, requestor := 7, selection := 100, target := 101,
        property := 105, time := 0 } 100 105 101 true
      { ret := 0, actual := 101, format := 8, size := 2, n := 0, data := [104, 105] }
      [] (by decide)).2 (by decide)).2 (by decide) (by decide) |>.2 (by decide) (by decide)
      (by decide) (by decide) (by decide)]
    decide⟩

/-! ## C17: the bounded retry of `XOpenDisplay` -/

end Clipboard
